import Mathlib

/-! ptyjig, the pseudo-terminal session controller.

A shallow embedding of `src/ptyjig.c` (built with `LINUX` defined and `SOLARIS`
not defined) and theorems about its exit status, its capture files, its
cleanup, its idle timer, its choice of a pseudo-terminal and its option
parser. The generator `src/fuzz.c` follows in the namespace `Fuzz`. The
definitions of both programs come first, the theorems after them.

Conventions of the embedding:

* a process is a record of the global variables it reads and writes, the
  signal dispositions it has installed, the trace of the library and system
  calls it has made, and whether it is still running;
* `exit` ends the process: nothing is modelled after it;
* results that come from outside the program (what `wait3` returned, what
  each `read` and `write` returned) are inputs of the definitions.
-/

namespace Ptyjig

/-! ## Constants and types -/

/-- The macro `TRUE` of ptyjig.c. -/
def TRUE : Int := 1

/-- The macro `FALSE` of ptyjig.c. -/
def FALSE : Int := 0

/-- The signals the program names, and `num n` for a signal given by number
(`kill( readerPID, status.w_termsig )`). -/
inductive Signal where
  | SIGINT | SIGQUIT | SIGTERM | SIGWINCH | SIGCHLD | SIGKILL | SIGCONT
  | SIGUSR1 | SIGALRM | SIGTSTP
  | num (n : Nat)
  deriving DecidableEq, Repr

/-- What `signal(sig, ...)` installs: `SIG_DFL`, `SIG_IGN`, or one of the
handler functions of ptyjig.c. -/
inductive Disposition where
  | SIG_DFL | SIG_IGN
  | sigchld | sigwinch | clean_int | clean_quit | clean_term
  | execute_done | reader_done | writer_done
  deriving DecidableEq, Repr

/-- One library or system call with an effect outside the process. -/
inductive Event where
  | signal (sig : Signal) (d : Disposition)
  | fclose_filei
  | fclose_fileo
  | kill (pid : Int) (sig : Signal)
  | stderr (text : String)
  | stdout (text : String)
  | perror (what : String)
  deriving DecidableEq, Repr

/-- Whether the process is still executing, has called `exit(code)`, or has
performed a read with no defined result (an index outside `mesg`, or a null
`pname` handed to `%s`). -/
inductive Status where
  | running
  | exited (code : Int)
  | fault
  deriving DecidableEq, Repr

/-- The controller process: the globals of ptyjig.c that the handlers use,
the installed dispositions, and the calls made so far. -/
structure Proc where
  flagi : Int
  flago : Int
  readerPID : Int
  writerPID : Int
  execPID : Int
  progname : String
  onSIGINT : Disposition
  onSIGQUIT : Disposition
  onSIGTERM : Disposition
  onSIGWINCH : Disposition
  onSIGCHLD : Disposition
  trace : List Event
  status : Status
  deriving DecidableEq, Repr

/-- One entry of `struct mesg`; `none` is the null pointer. -/
structure Mesg where
  iname : Option String
  pname : Option String
  deriving DecidableEq, Repr

/-- The table `mesg[]` of ptyjig.c: 33 entries, indices 0..32. -/
def mesg : List Mesg :=
  [ ⟨none, none⟩,
    ⟨some "HUP", some "Hangup"⟩,
    ⟨some "INT", some "Interrupt"⟩,
    ⟨some "QUIT", some "Quit"⟩,
    ⟨some "ILL", some "Illegal instruction"⟩,
    ⟨some "TRAP", some "Trace/BPT trap"⟩,
    ⟨some "IOT", some "IOT trap"⟩,
    ⟨some "EMT", some "EMT trap"⟩,
    ⟨some "FPE", some "Floating exception"⟩,
    ⟨some "KILL", some "Killed"⟩,
    ⟨some "BUS", some "Bus error"⟩,
    ⟨some "SEGV", some "Segmentation fault"⟩,
    ⟨some "SYS", some "Bad system call"⟩,
    ⟨some "PIPE", some "Broken pipe"⟩,
    ⟨some "ALRM", some "Alarm clock"⟩,
    ⟨some "TERM", some "Terminated"⟩,
    ⟨some "URG", some "Urgent I/O condition"⟩,
    ⟨some "STOP", some "Stopped (signal)"⟩,
    ⟨some "TSTP", some "Stopped"⟩,
    ⟨some "CONT", some "Continued"⟩,
    ⟨some "CHLD", some "Child exited"⟩,
    ⟨some "TTIN", some "Stopped (tty input)"⟩,
    ⟨some "TTOU", some "Stopped (tty output)"⟩,
    ⟨some "IO", some "I/O possible"⟩,
    ⟨some "XCPU", some "Cputime limit exceeded"⟩,
    ⟨some "XFSZ", some "Filesize limit exceeded"⟩,
    ⟨some "VTALRM", some "Virtual timer expired"⟩,
    ⟨some "PROF", some "Profiling timer expired"⟩,
    ⟨some "WINCH", some "Window size changed"⟩,
    ⟨none, some "Signal 29"⟩,
    ⟨some "USR1", some "User defined signal 1"⟩,
    ⟨some "USR2", some "User defined signal 2"⟩,
    ⟨none, some "Signal 32"⟩ ]

/-- The read `mesg[i].pname` as a string for `%s`: defined only when `i` is
an index of the table and the entry's `pname` is not null. -/
def mesg_pname (i : Nat) : Option String :=
  match mesg[i]? with
  | some m => m.pname
  | none => none

/-! ## The wait status

`union wait` is declared by `<sys/wait.h>`; the declaration inside ptyjig.c is
under `#ifdef SOLARIS` and is compiled out. -/

/-- Modelled from the spec: the field `w_termsig` of `union wait`, whose
declaration is not in the repository. The classic layout is taken, the one in
which a normal exit with status N is the status word N<<8: bits 0..6. -/
def w_termsig (w : Nat) : Nat := w % 128

/-- Modelled from the spec: the field `w_coredump` of `union wait`, whose
declaration is not in the repository: bit 7. -/
def w_coredump (w : Nat) : Nat := (w / 128) % 2

/-- Modelled from the spec: the field `w_retcode` of `union wait`, whose
declaration is not in the repository: bits 8..15. -/
def w_retcode (w : Nat) : Nat := (w / 256) % 256

/-- Modelled from the spec: the field `w_stopval` of `union wait`, whose
declaration is not in the repository: bits 0..7. -/
def w_stopval (w : Nat) : Nat := w % 256

/-- Modelled from the spec: the field `w_stopsig` of `union wait`, whose
declaration is not in the repository: bits 8..15, the same bits as
`w_retcode`. -/
def w_stopsig (w : Nat) : Nat := (w / 256) % 256

/-- The status word of a child that called `exit(n)`. -/
def exitedWord (n : Nat) : Nat := n * 256

/-- The status word of a child killed by signal `sig`, with or without a
core dump. -/
def signaledWord (sig : Nat) (core : Bool) : Nat := sig + (if core then 128 else 0)

/-! ## Calls -/

/-- The call `signal(sig, d)`: record it and update the disposition. -/
def sysSignal (sig : Signal) (d : Disposition) (s : Proc) : Proc :=
  let s := { s with trace := s.trace ++ [Event.signal sig d] }
  match sig with
  | .SIGINT => { s with onSIGINT := d }
  | .SIGQUIT => { s with onSIGQUIT := d }
  | .SIGTERM => { s with onSIGTERM := d }
  | .SIGWINCH => { s with onSIGWINCH := d }
  | .SIGCHLD => { s with onSIGCHLD := d }
  | _ => s

/-- The call `kill(pid, sig)`. -/
def sysKill (pid : Int) (sig : Signal) (s : Proc) : Proc :=
  { s with trace := s.trace ++ [Event.kill pid sig] }

/-- Text written to stderr by `fprintf`. -/
def fprintfStderr (text : String) (s : Proc) : Proc :=
  { s with trace := s.trace ++ [Event.stderr text] }

/-- The call `exit(code)`. -/
def sysExit (code : Int) (s : Proc) : Proc :=
  { s with status := Status.exited code }

/-- A read with no defined result: the embedding stops here. -/
def undefinedRead (s : Proc) : Proc :=
  { s with status := Status.fault }

/-! ## done, sigchld, clean and the clean_* handlers -/

/-- The function `done()`: close the capture files that are flagged open. -/
def done (s : Proc) : Proc :=
  let s := if s.flagi ≠ 0 then
      { s with trace := s.trace ++ [Event.fclose_filei], flagi := FALSE }
    else s
  let s := if s.flago ≠ 0 then
      { s with trace := s.trace ++ [Event.fclose_fileo], flago := FALSE }
    else s
  s

/-- The handler `sigchld`. `SIGTSTP` is the value of that macro of
`<signal.h>`; `pid` and `status` are what `wait3` returned. -/
def sigchld (SIGTSTP : Nat) (pid : Int) (status : Nat) (s : Proc) : Proc :=
  if pid ≠ 0 then
    if w_stopsig status = SIGTSTP then
      let s := sysKill pid Signal.SIGCONT s
      sysExit 0 s
    else
      let s := sysSignal Signal.SIGINT Disposition.SIG_DFL s
      let s := sysSignal Signal.SIGQUIT Disposition.SIG_DFL s
      let s := sysSignal Signal.SIGTERM Disposition.SIG_DFL s
      let s := sysSignal Signal.SIGWINCH Disposition.SIG_DFL s
      let s := sysSignal Signal.SIGCHLD Disposition.SIG_IGN s
      let s := done s
      let s := if pid ≠ s.execPID then
          let s := sysKill s.execPID Signal.SIGKILL s
          sysKill s.readerPID (Signal.num (w_termsig status)) s
        else s
      let s := sysKill s.execPID Signal.SIGKILL s
      let s := if pid ≠ s.writerPID ∧ s.writerPID ≠ -1 then
          sysKill s.writerPID Signal.SIGKILL s
        else s
      if w_termsig status ≠ 0 then
        match mesg_pname (w_termsig status) with
        | some pname =>
          let s := fprintfStderr
            ("ptyjig: " ++ s.progname ++ ": " ++ pname ++
              (if w_coredump status ≠ 0 then " (core dumped)" else "") ++ "\n") s
          sysExit (if w_termsig status ≠ 0 then w_termsig status else w_retcode status) s
        | none => undefinedRead s
      else
        sysExit (if w_termsig status ≠ 0 then w_termsig status else w_retcode status) s
  else s

/-- The function `clean()`. -/
def clean (s : Proc) : Proc :=
  let s := sysSignal Signal.SIGCHLD Disposition.SIG_IGN s
  let s := if s.execPID ≠ -1 then sysKill s.execPID Signal.SIGKILL s else s
  let s := if s.writerPID ≠ -1 then sysKill s.writerPID Signal.SIGKILL s else s
  done s

/-- The handler `clean_int`. -/
def clean_int (s : Proc) : Proc :=
  let s := sysSignal Signal.SIGINT Disposition.SIG_DFL s
  let s := clean s
  sysKill s.readerPID Signal.SIGINT s

/-- The handler `clean_quit`. -/
def clean_quit (s : Proc) : Proc :=
  let s := clean s
  let s := sysSignal Signal.SIGQUIT Disposition.SIG_DFL s
  sysKill s.readerPID Signal.SIGQUIT s

/-- The handler `clean_term`. -/
def clean_term (s : Proc) : Proc :=
  let s := clean s
  let s := sysSignal Signal.SIGTERM Disposition.SIG_DFL s
  sysKill s.readerPID Signal.SIGTERM s

/-- The text the handler has written to stderr, in order. -/
def stderrText (s : Proc) : List String :=
  s.trace.filterMap fun e => match e with
    | Event.stderr t => some t
    | _ => none

/-- A controller in the state `main` leaves it in when it enters the drain
loop: the three pids known, the handlers installed, nothing called yet. -/
def controller (flagi flago : Int) (readerPID writerPID execPID : Int)
    (progname : String) : Proc :=
  { flagi := flagi, flago := flago,
    readerPID := readerPID, writerPID := writerPID, execPID := execPID,
    progname := progname,
    onSIGINT := Disposition.clean_int, onSIGQUIT := Disposition.clean_quit,
    onSIGTERM := Disposition.clean_term, onSIGWINCH := Disposition.sigwinch,
    onSIGCHLD := Disposition.sigchld,
    trace := [], status := Status.running }

/-! ## writer: the forwarder process -/

/-- The globals `writer()` reads. `flage` is a `char`: its value is also the
byte sent as end-of-input marker. -/
structure WriterGlobals where
  flage : Nat
  flagi : Int
  flagd : Nat
  namei : String
  readerPID : Int
  deriving DecidableEq, Repr

/-- The initializers of those globals in ptyjig.c (`char flage = TRUE`,
`int flagi = FALSE`, `unsigned flagd = FALSE`, `int readerPID = -1`); `namei`
has none. With `LINUX` defined nothing but the option `-e` assigns `flage`:
`fixtty`, which stores the terminal EOF character in it, is compiled for
`SOLARIS` only. -/
def initialWriterGlobals : WriterGlobals :=
  { flage := 1, flagi := FALSE, flagd := 0, namei := "", readerPID := -1 }

/-- The option `-i FILE` of `main`: `flagi = TRUE; namei = argv[2]`. -/
def optionI (file : String) (g : WriterGlobals) : WriterGlobals :=
  { g with flagi := TRUE, namei := file }

/-- The option `-e` of `main`: `flage = FALSE`. -/
def optionE (g : WriterGlobals) : WriterGlobals :=
  { g with flage := 0 }

/-- A call made by the forwarder. -/
inductive WEvent where
  | write_pty (c : Nat)
  | write_filei (c : Nat)
  | perror (what : String)
  | usleep (usec : Nat)
  | kill (pid : Int) (sig : Signal)
  deriving DecidableEq, Repr

/-- One pass through the body of the `while` of `writer()` for the byte `c`
just read; `rpty` and `rfile` are what the two `write` calls return. The
Boolean is false when the body ends in `break`. -/
def writerBody (g : WriterGlobals) (rpty rfile : Int) (c : Nat) (tr : List WEvent) :
    List WEvent × Bool :=
  if rpty ≠ 1 then (tr, false)
  else
    let tr := tr ++ [WEvent.write_pty c]
    if g.flagi ≠ 0 then
      let c := if c = 13 then 10 else c
      if rfile ≠ 1 then (tr ++ [WEvent.perror g.namei], false)
      else
        let tr := tr ++ [WEvent.write_filei c]
        (if g.flagd ≠ 0 then tr ++ [WEvent.usleep g.flagd] else tr, true)
    else
      (if g.flagd ≠ 0 then tr ++ [WEvent.usleep g.flagd] else tr, true)

/-- The `while( read(0, &c, 1) == 1 )` of `writer()`: `input` is what is
left of standard input, `k` counts the passes, and `wpty k`, `wfile k` are
the results of the `write` calls of pass `k`. -/
def writerLoop (g : WriterGlobals) (wpty wfile : Nat → Int) :
    Nat → List Nat → List WEvent → List WEvent
  | _, [], tr => tr
  | k, c :: rest, tr =>
    match writerBody g (wpty k) (wfile k) c tr with
    | (tr, true) => writerLoop g wpty wfile (k + 1) rest tr
    | (tr, false) => tr

/-- The function `writer()` up to the `while( 1 )` in which it waits to be
killed: the loop, the end-of-input marker (`weof` is what that `write`
returns), and the `SIGUSR1` for the controller. -/
def writer (g : WriterGlobals) (wpty wfile : Nat → Int) (weof : Int)
    (input : List Nat) : List WEvent :=
  let tr := writerLoop g wpty wfile 0 input []
  let tr := if g.flage ≠ 0 then
      (if weof = 1 then tr ++ [WEvent.write_pty g.flage] else tr)
    else tr
  tr ++ [WEvent.kill g.readerPID Signal.SIGUSR1]

/-- The bytes written to the pty master, in order. -/
def ptyBytes (tr : List WEvent) : List Nat :=
  tr.filterMap fun e => match e with
    | WEvent.write_pty c => some c
    | _ => none

/-- The bytes written to the input capture file, in order. -/
def fileiBytes (tr : List WEvent) : List Nat :=
  tr.filterMap fun e => match e with
    | WEvent.write_filei c => some c
    | _ => none

/-- The diagnostics the forwarder has reported with `perror`, in order. -/
def perrors (tr : List WEvent) : List String :=
  tr.filterMap fun e => match e with
    | WEvent.perror w => some w
    | _ => none

/-! ## reader: the drain loop of the controller -/

/-- A call made by the drain loop. -/
inductive REvent where
  | write_stdout (bytes : List Nat)
  | write_fileo (bytes : List Nat)
  | perror (what : String)
  | ualarm (usecs : Nat)
  | sleep (secs : Nat)
  | kill (pid : Int) (sig : Signal)
  | signal (sig : Signal) (d : Disposition)
  deriving DecidableEq, Repr

/-- The controller inside `reader()`: the globals it reads, the flag
`writing`, the microseconds left on the interval timer that `ualarm` sets (0
when no alarm is scheduled), whether it is still in the `while` of
`reader()`, and its calls. -/
structure Reader where
  flagx : Int
  flago : Int
  flagt : Nat
  nameo : String
  execPID : Int
  writing : Int
  alarm : Nat
  looping : Bool
  trace : List REvent
  status : Status
  deriving DecidableEq, Repr

/-- What happens to the controller while it is in `reader()`: a `read` of
the pty that returns the bytes `c` (with the results of the two `write`
calls that follow), a `read` that returns no byte, `SIGUSR1` from the
forwarder, or `usecs` microseconds going by. -/
inductive Input where
  | chunk (c : List Nat) (rout rfile : Int)
  | eof
  | sigusr1
  | elapse (usecs : Nat)
  deriving DecidableEq, Repr

/-- The controller at the top of the `while` of `reader()`, after the two
calls of `signal` that open the function: `writing` still has its initializer
TRUE and no alarm has been scheduled. -/
def readerStart (flagx flago : Int) (flagt : Nat) (nameo : String) (execPID : Int) :
    Reader :=
  { flagx := flagx, flago := flago, flagt := flagt, nameo := nameo, execPID := execPID,
    writing := TRUE, alarm := 0, looping := true,
    trace := [REvent.signal Signal.SIGALRM Disposition.reader_done,
              REvent.signal Signal.SIGUSR1 Disposition.writer_done],
    status := Status.running }

/-- The library call `ualarm( usecs, 0 )`, whose result the program never
looks at. On the LINUX build it hands `usecs` to `setitimer` as the count of
microseconds of the timer value, with 0 seconds: the timer is set to `usecs`
when `usecs` is less than 1000000, and the call fails with EINVAL and leaves
the timer as it was when `usecs` is 1000000 or more. -/
def ualarm (usecs : Nat) (s : Reader) : Reader :=
  { s with alarm := if usecs < 1000000 then usecs else s.alarm,
           trace := s.trace ++ [REvent.ualarm usecs] }

/-- The handler `writer_done`. -/
def writer_done (s : Reader) : Reader :=
  ualarm s.flagt { s with writing := FALSE }

/-- The handler `reader_done`. -/
def reader_done (s : Reader) : Reader :=
  { s with trace := s.trace ++ [REvent.sleep 1, REvent.kill s.execPID Signal.SIGKILL] }

/-- The body of the `while` of `reader()` for a chunk `c` of `i > 0` bytes.
A `write` that returns `r` has written the first `r` bytes. -/
def readerBody (c : List Nat) (rout rfile : Int) (s : Reader) : Reader :=
  let i : Int := c.length
  let s := if s.flagx = 0 then
      { s with trace := s.trace ++ [REvent.write_stdout (c.take rout.toNat)] }
    else s
  if s.flagx = 0 ∧ rout ≠ i then { s with status := Status.exited 1 }
  else
    let s := if s.flago ≠ 0 then
        { s with trace := s.trace ++ [REvent.write_fileo (c.take rfile.toNat)] }
      else s
    if s.flago ≠ 0 ∧ rfile ≠ i then
      { s with trace := s.trace ++ [REvent.perror s.nameo], status := Status.exited 1 }
    else if s.writing = 0 then ualarm s.flagt s
    else s

/-- One input to the controller. Nothing happens to a process that has
exited; a chunk is read only inside the loop; a `read` that returns no byte
ends the loop and `reader_done( 0 )` is called; `SIGUSR1` runs `writer_done`;
time going by runs down a scheduled alarm, which at zero is spent (the
interval given to `ualarm` is 0) and delivers `SIGALRM` to `reader_done`. -/
def readerStep (s : Reader) (e : Input) : Reader :=
  if s.status ≠ Status.running then s
  else
    match e with
    | Input.chunk c rout rfile =>
      if s.looping ∧ c ≠ [] then readerBody c rout rfile s else s
    | Input.eof =>
      if s.looping then reader_done { s with looping := false } else s
    | Input.sigusr1 => writer_done s
    | Input.elapse usecs =>
      if s.alarm = 0 then s
      else if usecs < s.alarm then { s with alarm := s.alarm - usecs }
      else reader_done { s with alarm := 0 }

/-- The controller after a sequence of inputs. -/
def readerRun (s : Reader) (es : List Input) : Reader :=
  es.foldl readerStep s

/-- The function `reader()` on a sequence of inputs. -/
def reader (flagx flago : Int) (flagt : Nat) (nameo : String) (execPID : Int)
    (es : List Input) : Reader :=
  readerRun (readerStart flagx flago flagt nameo execPID) es

/-- The bytes written to standard output, in order. -/
def stdoutBytes (s : Reader) : List Nat :=
  (s.trace.filterMap fun e => match e with
    | REvent.write_stdout b => some b
    | _ => none).flatten

/-- The bytes written to the output capture file, in order. -/
def fileoBytes (s : Reader) : List Nat :=
  (s.trace.filterMap fun e => match e with
    | REvent.write_fileo b => some b
    | _ => none).flatten

/-- The bytes of the chunks among the inputs, in order. -/
def chunkBytes (es : List Input) : List Nat :=
  (es.filterMap fun e => match e with
    | Input.chunk c _ _ => some c
    | _ => none).flatten

/-- The inputs before the first `read` that returns no byte. -/
def beforeEof (es : List Input) : List Input :=
  es.takeWhile fun e => decide (e ≠ Input.eof)

/-- Every `write` of the chunks among the inputs returned the full count. -/
def writesComplete (es : List Input) : Prop :=
  ∀ e ∈ es, match e with
    | Input.chunk c rout rfile => rout = c.length ∧ rfile = c.length
    | _ => True

/-! ## Finalization invocations -/

/-- One invocation of a finalization path of the controller: `done`, `clean`,
one of the three `clean_*` handlers, or `sigchld` with what `wait3` returned
to it. -/
inductive Finalizer where
  | done
  | clean
  | clean_int
  | clean_quit
  | clean_term
  | sigchld (SIGTSTP : Nat) (pid : Int) (status : Nat)
  deriving DecidableEq, Repr

/-- Run one finalization path. -/
def Finalizer.run (f : Finalizer) (s : Proc) : Proc :=
  match f with
  | Finalizer.done => Ptyjig.done s
  | Finalizer.clean => Ptyjig.clean s
  | Finalizer.clean_int => Ptyjig.clean_int s
  | Finalizer.clean_quit => Ptyjig.clean_quit s
  | Finalizer.clean_term => Ptyjig.clean_term s
  | Finalizer.sigchld t pid status => Ptyjig.sigchld t pid status s

/-- Run a sequence of finalization paths, one after the other. A path that
ends the process (`exit`) is the last one that runs. A signal the controller
sends to itself is recorded as a call of `kill` and the sequence goes on,
whether or not that signal would end the process. -/
def runFinalizers (s : Proc) (fs : List Finalizer) : Proc :=
  fs.foldl (fun s f => if s.status = Status.running then f.run s else s) s

/-- How many times `fclose( filei )` was called. -/
def fcloseFileiCount (s : Proc) : Nat :=
  s.trace.count Event.fclose_filei

/-- How many times `fclose( fileo )` was called. -/
def fcloseFileoCount (s : Proc) : Nat :=
  s.trace.count Event.fclose_fileo

/-- For each capture file, the calls of `fclose` made so far plus the one
that a flag still set allows. -/
def closesBound (s : Proc) : Nat × Nat :=
  (fcloseFileiCount s + (if s.flagi ≠ 0 then 1 else 0),
   fcloseFileoCount s + (if s.flago ≠ 0 then 1 else 0))

/-! ## setup_pty -/

/-- The device namespace as `setup_pty` sees it: the results of `stat`, of
`open( name, O_RDWR )` and of `access( name, R_OK | W_OK )` for each name. -/
structure Devices where
  stat : String → Int
  openRdwr : String → Int
  access : String → Int

/-- A call made by `setup_pty`. -/
inductive PEvent where
  | opened (name : String) (fd : Int)
  | close (fd : Int)
  | stderr (text : String)
  deriving DecidableEq, Repr

/-- The globals `pty` and `ttyNameUsed`, the local `foundOne`, and the calls
of `setup_pty`. -/
structure PtyState where
  pty : Int
  ttyNameUsed : String
  foundOne : Bool
  trace : List PEvent
  status : Status
  deriving DecidableEq, Repr

/-- The result of `sprintf( ttyNameUsed, "/dev/pty%c%x", c, i )`. -/
def ptyName (c : Char) (i : Nat) : String :=
  "/dev/pty" ++ String.singleton c ++ String.mk (Nat.toDigits 16 i)

/-- The assignment `ttyNameUsed[5] = \x27t\x27`. -/
def setSlaveLetter (name : String) : String :=
  String.mk (name.data.set 5 't')

/-- The body of the inner `for` of `setup_pty` for the candidate `c`, `i`. -/
def setupPtyBody (d : Devices) (c : Char) (i : Nat) (s : PtyState) : PtyState :=
  let s := { s with ttyNameUsed := ptyName c i }
  if d.stat s.ttyNameUsed < 0 then
    { s with trace := s.trace ++ [PEvent.stderr "ptyjig: no pty\x27s available\n"],
             status := Status.exited 2 }
  else
    let s := { s with pty := d.openRdwr s.ttyNameUsed,
                      trace := s.trace ++ [PEvent.opened s.ttyNameUsed (d.openRdwr s.ttyNameUsed)] }
    if s.pty > 0 then
      let s := { s with ttyNameUsed := setSlaveLetter s.ttyNameUsed }
      if d.access s.ttyNameUsed = 0 then { s with foundOne := true }
      else { s with trace := s.trace ++ [PEvent.close s.pty] }
    else s

/-- The inner loop `for( i = 0 ; i <= 9 && !foundOne ; i++ )`, over the
values of `i` that are left. -/
def setupPtyInner (d : Devices) (c : Char) : List Nat → PtyState → PtyState
  | [], s => s
  | i :: rest, s =>
    if s.status ≠ Status.running ∨ s.foundOne then s
    else setupPtyInner d c rest (setupPtyBody d c i s)

/-- The outer loop `for( c = \x27p\x27 ; c <= \x27r\x27 && !foundOne ; c++ )`, over the
values of `c` that are left. -/
def setupPtyOuter (d : Devices) : List Char → PtyState → PtyState
  | [], s => s
  | c :: rest, s =>
    if s.status ≠ Status.running ∨ s.foundOne then s
    else setupPtyOuter d rest (setupPtyInner d c (List.range 10) s)

/-- The function `setup_pty()`; `pty0` and `name0` are the values of `pty`
and `ttyNameUsed` on entry. -/
def setup_pty (d : Devices) (pty0 : Int) (name0 : String) : PtyState :=
  let s := setupPtyOuter d ['p', 'q', 'r']
    { pty := pty0, ttyNameUsed := name0, foundOne := false, trace := [],
      status := Status.running }
  if s.status ≠ Status.running then s
  else if ¬ s.foundOne then
    { s with trace := s.trace ++ [PEvent.stderr "ptyjig: no pty\x27s available\n"],
             status := Status.exited 2 }
  else s

/-! ## usage and the child of execute -/

/-- The help screen `usage()` prints, one string for each `printf`. -/
def usageText : List String :=
  [ "  ptyjig -- Super pipe for piping output to Unix utilities.\n\n",
    "  Usage:\n",
    "    ptyjig [options] cmd <args>\n\n",
    "  Description:\n",
    "    Run command \"cmd\" with arguments \"args\" in background, piping\n",
    "    stdin to \"cmd\" as its input and prints out \"cmd\"\x27s output\n",
    "    to stdout.  This program sets up pseudo-terminal pairs, so that\n",
    "    it can be used to pipe input to programs that read directly from\n",
    "    a tty interface.\n\n",
    "  Options:\n",
    "    -e          suppresses sending EOF char after stdin exhausted\n",
    "    -s          suppresses interrupts\n",
    "    -x          suppresses the standard output\n",
    "    -i FILEIN   standard input saved to file FILEIN\n",
    "    -o FILEOUT  standard output saved to file FILEOUT\n",
    "    -d DELAY    use a keystroke delay of DELAY seconds (accepts floating pt)\n",
    "    -t TIMEOUT  kill \"cmd\" if stdin exhausted and \"cmd\" doesn\x27t send\n",
    "                output for TIMEOUT seconds\n",
    "    -w WAIT     wait WAIT seconds before streaming input to \"cmd\"\n\n",
    "  Defaults:\n",
    "    -i /dev/null -o /dev/null -d 0 -t 2\n\n",
    "  Examples:\n\n",
    "     pty -o out -d 0.05 -t 10 vi text1 < text2\n\n",
    "       Starts \"vi text1\" in background, typing the characters\n",
    "       in \"text2\" into it with a delay of 0.05 sec between each\n",
    "       character, and save the output of \"vi\" to \"out\".\n",
    "       Program ends when \"vi\" stops outputting for 10 seconds.\n\n",
    "     pty -i in -o out csh\n\n",
    "       Behaves like \"script out\" except the keystrokes typed by\n",
    "       a user are also saved into \"in\".\n",
    "  Authors: \n",
    "     Lars Fredriksen, Bryan So, Barton Miller\n\n",
    "  Updated by: \n",
    "     Gregory Smethells, Brian Bowers, Karlen Lie\n" ]

/-- The function `usage()`: print the help screen and `exit( 1 )`. -/
def usage (s : Proc) : Proc :=
  sysExit 1 { s with trace := s.trace ++ usageText.map Event.stdout }

/-- How the child forked by `execute` ends up: it has called `exit(code)`,
or `execvp` succeeded and it is now the target command. -/
inductive ChildOutcome where
  | exited (code : Int)
  | isTarget
  deriving DecidableEq, Repr

/-- A call made by the child forked by `execute`. -/
inductive CEvent where
  | dup (fd : Int)
  | dup2 (oldfd newfd : Int)
  | close (fd : Int)
  | signal (sig : Signal) (d : Disposition)
  | killParent (sig : Signal)
  | execvp (file : String)
  | perror (what : String)
  deriving DecidableEq, Repr

/-- The branch `execPID == CHILD` of `execute( cmd )`, with `setup_tty()`
inlined: `tty` is what `open( ttyNameUsed, O_RDWR )` returned, `fstdin`,
`fstdout`, `fstderr` what the three `dup` calls returned, and `execvpReturns`
says whether `execvp` came back, which it does only when it failed. -/
def executeChild (flags : Int) (ttyNameUsed cmd0 : String) (fstdin fstdout fstderr : Int)
    (tty : Int) (execvpReturns : Bool) : List CEvent × ChildOutcome :=
  let tr := [CEvent.dup 0, CEvent.dup 1, CEvent.dup 2]
  if tty < 0 then (tr ++ [CEvent.perror ttyNameUsed], ChildOutcome.exited 1)
  else
    let tr := tr ++ [CEvent.dup2 tty 0, CEvent.dup2 tty 1, CEvent.dup2 tty 2, CEvent.close tty]
    let tr := if flags ≠ 0 then
        tr ++ [CEvent.signal Signal.SIGINT Disposition.SIG_IGN,
               CEvent.signal Signal.SIGQUIT Disposition.SIG_IGN,
               CEvent.signal Signal.SIGTSTP Disposition.SIG_IGN]
      else tr
    let tr := tr ++ [CEvent.killParent Signal.SIGUSR1, CEvent.execvp cmd0]
    if execvpReturns then
      (tr ++ [CEvent.dup2 fstdin 0, CEvent.dup2 fstdout 1, CEvent.dup2 fstderr 2,
              CEvent.perror cmd0], ChildOutcome.exited 1)
    else (tr, ChildOutcome.isTarget)

/-- The status word `wait3` hands to the controller for a child that ended
by `exit(code)`. -/
def ChildOutcome.word : ChildOutcome → Option Nat
  | ChildOutcome.exited code => some (exitedWord (code % 256).toNat)
  | ChildOutcome.isTarget => none

/-! ## The selection setup_pty is to make -/

/-- The candidates in the order `setup_pty` visits them: the letters p, q, r
and, for each letter, the numbers 0..9. -/
def ptyCandidates : List (Char × Nat) :=
  (['p', 'q', 'r'].map fun c => (List.range 10).map fun i => (c, i)).flatten

/-- The outcome of a scan of candidates: one is selected, `stat` failed on a
candidate reached before any was selected, or no candidate qualified. -/
inductive Selection where
  | selected (c : Char) (i : Nat)
  | statFailed
  | exhausted
  deriving DecidableEq, Repr

/-- The scan in the words of the specification: go through the candidates in
order; stop with a failure at one whose `stat` fails; select the first one
whose master opens successfully and whose slave is accessible for reading and
writing. `opened` says which results of `open` count as a successful open. -/
def selectFirst (d : Devices) (opened : Int → Bool) : List (Char × Nat) → Selection
  | [] => Selection.exhausted
  | (c, i) :: rest =>
    if d.stat (ptyName c i) < 0 then Selection.statFailed
    else if opened (d.openRdwr (ptyName c i)) = true ∧
        d.access (setSlaveLetter (ptyName c i)) = 0 then Selection.selected c i
    else selectFirst d opened rest

/-- A successful `open`: the result is a descriptor, that is, not negative. -/
def openSucceeded (fd : Int) : Bool := decide (0 ≤ fd)

/-- The test `setup_pty` makes on the result of `open`: greater than 0. -/
def openPositive (fd : Int) : Bool := decide (fd > 0)

/-- What the loops of `setup_pty` leave behind when the scan has the outcome
`sel`: for a selected candidate, `pty` is the descriptor of its master and
`ttyNameUsed` the name of its slave; after a failed `stat` the process has
exited with status 2; after an exhausted scan nothing is found yet. -/
def Selection.leaves (d : Devices) (sel : Selection) (r : PtyState) : Prop :=
  match sel with
  | Selection.selected c i =>
    r.status = Status.running ∧ r.foundOne = true ∧
      r.pty = d.openRdwr (ptyName c i) ∧ r.ttyNameUsed = setSlaveLetter (ptyName c i)
  | Selection.statFailed => r.status = Status.exited 2
  | Selection.exhausted => r.status = Status.running ∧ r.foundOne = false

/-- A device namespace seen by a controller started with standard input
closed: every `stat` succeeds, `open` of `/dev/ptyp0` returns the free
descriptor 0, `open` of `/dev/ptyp1` returns 5, no other master opens, and
every slave is accessible. -/
def closedStdinDevices : Devices :=
  { stat := fun _ => 0,
    openRdwr := fun name =>
      if name = "/dev/ptyp0" then 0 else if name = "/dev/ptyp1" then 5 else -1,
    access := fun _ => 0 }

/-! ## Finalization by a clean_* handler -/

/-- What a handler for the signal `sig` that starts in `s` and finishes in
`r` has done when it has finalized and re-raised: the calls `new` it added
send SIGKILL to the target and to the forwarder when their pids are set,
close each capture file whose flag was set, once, and end with `sig` sent to
`readerPID`; both flags are FALSE afterwards. -/
def Finalized (sig : Signal) (s r : Proc) : Prop :=
  ∃ new : List Event, r.trace = s.trace ++ new ∧
    (s.execPID ≠ -1 → Event.kill s.execPID Signal.SIGKILL ∈ new) ∧
    (s.writerPID ≠ -1 → Event.kill s.writerPID Signal.SIGKILL ∈ new) ∧
    new.count Event.fclose_filei = (if s.flagi ≠ 0 then 1 else 0) ∧
    new.count Event.fclose_fileo = (if s.flago ≠ 0 then 1 else 0) ∧
    r.flagi = FALSE ∧ r.flago = FALSE ∧
    new.getLast? = some (Event.kill s.readerPID sig)

/-! ## main: the option parser -/

/-- What a read of `argv[i]` finds, for the vector `main` was given: one of
its `argc` strings, the null pointer that ends it, or memory past that null
pointer. -/
inductive ArgRead where
  | str (s : String)
  | null
  | past
  deriving DecidableEq, Repr

/-- The read of entry `i` of the vector whose strings are `args`. -/
def argvAt (args : List String) (i : Nat) : ArgRead :=
  match args[i]? with
  | some s => ArgRead.str s
  | none => if i = args.length then ArgRead.null else ArgRead.past

/-- How the option parser stands: still running, ended in `usage()` (which
exits with status 1), stopped at a dereference of the null pointer, stopped
at a read past the null pointer that ends `argv`, or stopped because the
embedding was given too few passes of the outer loop. -/
inductive ParseStatus where
  | running
  | usage
  | nullDereference
  | readPastArgv
  | outOfFuel
  deriving DecidableEq, Repr

/-- The variables of `main` and the globals its option parser sets. `argv`
is the number of entries by which the pointer `argv` has been advanced;
`namei` and `nameo` are `none` while they are null pointers. -/
structure MainState where
  argc : Int
  argv : Nat
  flage : Nat
  flags : Int
  flagx : Int
  flagi : Int
  flago : Int
  flagt : Nat
  flagw : Nat
  flagd : Nat
  namei : Option String
  nameo : Option String
  status : ParseStatus
  deriving DecidableEq, Repr

/-- The state on entry to `main`, with the initializers of the globals. -/
def mainStart (argc : Int) : MainState :=
  { argc := argc, argv := 0, flage := 1, flags := FALSE, flagx := FALSE, flagi := FALSE,
    flago := FALSE, flagt := 2 * 1000000, flagw := 0, flagd := 0,
    namei := none, nameo := none, status := ParseStatus.running }

/-- The statements `argc--; argv++;`. -/
def shiftArgs (s : MainState) : MainState :=
  { s with argc := s.argc - 1, argv := s.argv + 1 }

/-- A case of the `switch` that takes a file name (`-i`, `-o`): the pointer
`argv[2]` is copied, not dereferenced. -/
def nameOption (args : List String) (set : Option String → MainState → MainState)
    (s : MainState) : MainState × Bool :=
  match argvAt args (s.argv + 2) with
  | ArgRead.past => ({ s with status := ParseStatus.readPastArgv }, false)
  | ArgRead.null => (shiftArgs (set none s), false)
  | ArgRead.str v => (shiftArgs (set (some v) s), false)

/-- A case of the `switch` that takes a number of seconds (`-d`, `-t`, `-w`):
`sscanf( argv[2], "%f", &f )` reads the string `argv[2]`; `usecs` gives, for
a string, the value of `(unsigned)(f * 1000000.0)` when `sscanf` stores `f`,
and `none` when it returns less than 1. -/
def secondsOption (usecs : String → Option Nat) (args : List String)
    (set : Nat → MainState → MainState) (s : MainState) : MainState × Bool :=
  match argvAt args (s.argv + 2) with
  | ArgRead.past => ({ s with status := ParseStatus.readPastArgv }, false)
  | ArgRead.null => ({ s with status := ParseStatus.nullDereference }, false)
  | ArgRead.str v =>
    match usecs v with
    | none => ({ s with status := ParseStatus.usage }, false)
    | some u => (set u (shiftArgs s), false)

/-- The `switch( argv[1][num] )` of `main` for the character `ch`; the
Boolean is the value of `cont` after it. -/
def optionLetter (usecs : String → Option Nat) (args : List String) (ch : Char)
    (s : MainState) : MainState × Bool :=
  if ch = 'e' then ({ s with flage := 0 }, true)
  else if ch = 's' then ({ s with flags := TRUE }, true)
  else if ch = 'x' then ({ s with flagx := TRUE }, true)
  else if ch = 'i' then
    nameOption args (fun v s => { s with flagi := TRUE, namei := v }) s
  else if ch = 'o' then
    nameOption args (fun v s => { s with flago := TRUE, nameo := v }) s
  else if ch = 'd' then secondsOption usecs args (fun u s => { s with flagd := u }) s
  else if ch = 't' then secondsOption usecs args (fun u s => { s with flagt := u }) s
  else if ch = 'w' then secondsOption usecs args (fun u s => { s with flagw := u }) s
  else ({ s with status := ParseStatus.usage }, false)

/-- The loop `while( cont )` of `main`; the list holds the characters of
`argv[1]` from index `num` on. An empty list is the terminator under
`argv[1][num]`, which the `switch` sends to `usage()`. -/
def optionLetters (usecs : String → Option Nat) (args : List String) :
    List Char → MainState → MainState
  | [], s => { s with status := ParseStatus.usage }
  | ch :: rest, s =>
    match optionLetter usecs args ch s with
    | (s, cont) =>
      if s.status ≠ ParseStatus.running then s
      else if cont = true ∧ rest ≠ [] then optionLetters usecs args rest s
      else s

/-- The loop `while( (argc > 1) && (argv[1][0] == \x27-\x27) )` of `main`, for at
most `fuel` passes. -/
def parseOptions (usecs : String → Option Nat) (args : List String) :
    Nat → MainState → MainState
  | 0, s => if s.argc > 1 then { s with status := ParseStatus.outOfFuel } else s
  | fuel + 1, s =>
    if s.argc > 1 then
      match argvAt args (s.argv + 1) with
      | ArgRead.past => { s with status := ParseStatus.readPastArgv }
      | ArgRead.null => { s with status := ParseStatus.nullDereference }
      | ArgRead.str a =>
        match a.data with
        | '-' :: letters =>
          let s := optionLetters usecs args letters s
          if s.status ≠ ParseStatus.running then s
          else parseOptions usecs args fuel (shiftArgs s)
        | _ => s
    else s

/-- The function `main` up to and including `if( !argv[1] ) usage();`, for
the vector whose `argc` strings are `args`. A result that is still running
has found the command at `argv[1]`. -/
def mainArgs (usecs : String → Option Nat) (args : List String) : MainState :=
  let s := parseOptions usecs args args.length (mainStart args.length)
  if s.status ≠ ParseStatus.running then s
  else
    match argvAt args (s.argv + 1) with
    | ArgRead.past => { s with status := ParseStatus.readPastArgv }
    | ArgRead.null => { s with status := ParseStatus.usage }
    | ArgRead.str _ => s

end Ptyjig

/-! fuzz, the random byte generator (`src/fuzz.c`).

The process is a record of the calls it has made; results that come from
outside the program (what each `rand` and each `write` returned, what `sscanf`
stored) are inputs of the definitions. -/

namespace Fuzz

/-- The macro `TRUE` of fuzz.c. -/
def TRUE : Int := 1

/-- The macro `FALSE` of fuzz.c. -/
def FALSE : Int := 0

/-- Whether the process is still executing, has called `exit(code)`, or has
read a value that is not defined (memory past the end of `epilog`, or the
local `c` of `myputs` before anything was stored in it). -/
inductive Status where
  | running
  | exited (code : Int)
  | fault
  deriving DecidableEq, Repr

/-- The globals of fuzz.c that `fuzz`, `fuzzchar`, `fuzzstr`, `putch` and
`myputs` read. -/
structure Globals where
  flag0 : Int
  flaga : Int
  flagd : Nat
  flagl : Int
  flago : Int
  flagr : Int
  length : Int
  outfile : String
  deriving DecidableEq, Repr

/-- The initializers of those globals (`flaga = TRUE`, the others FALSE). -/
def initialGlobals : Globals :=
  { flag0 := FALSE, flaga := TRUE, flagd := 0, flagl := FALSE, flago := FALSE,
    flagr := FALSE, length := FALSE, outfile := "" }

/-- What the library returns: `rand k` is the result of call number `k` of
`rand()`, never negative; `wout k` and `wfile k` are the results of the
`write` to standard output and to the record file in call number `k` of
`putch`. -/
structure Env where
  rand : Nat → Nat
  wout : Nat → Int
  wfile : Nat → Int

/-- A call made by the generator. -/
inductive Event where
  | write_stdout (byte : Nat)
  | write_out (byte : Nat)
  | perror (what : String)
  | fclose_in
  | fclose_out
  | usleep (usecs : Nat)
  deriving DecidableEq, Repr

/-- The process: how many times it has called `rand` and `putch`, its calls,
and its status. -/
structure State where
  rands : Nat
  puts : Nat
  trace : List Event
  status : Status
  deriving DecidableEq, Repr

/-- A process that has made no call yet. -/
def start : State :=
  { rands := 0, puts := 0, trace := [], status := Status.running }

/-- The bytes written to standard output, in order. -/
def stdoutBytes (s : State) : List Nat :=
  s.trace.filterMap fun e => match e with
    | Event.write_stdout b => some b
    | _ => none

/-- The byte that `c = (char) i` makes `write( 1, &c, 1 )` send. -/
def toByte (i : Int) : Nat := (i % 256).toNat

/-- The function `putch( i )`. A process that has exited makes no call. -/
def putch (g : Globals) (env : Env) (i : Int) (s : State) : State :=
  if s.status ≠ Status.running then s
  else if env.wout s.puts ≠ 1 then
    { s with
      trace := s.trace ++ [Event.perror "fuzz"] ++
        (if g.flagr ≠ 0 then [Event.fclose_in] else []) ++
        (if g.flago ≠ 0 then [Event.fclose_out] else []),
      status := Status.exited 1 }
  else
    let s := { s with trace := s.trace ++ [Event.write_stdout (toByte i)] }
    if g.flago ≠ 0 ∧ env.wfile s.puts ≠ 1 then
      { s with trace := s.trace ++ [Event.perror g.outfile], status := Status.exited 1 }
    else
      let s := if g.flago ≠ 0 then
          { s with trace := s.trace ++ [Event.write_out (toByte i)] }
        else s
      let s := if g.flagd ≠ 0 then { s with trace := s.trace ++ [Event.usleep g.flagd] } else s
      { s with puts := s.puts + 1 }

/-- The random character of `fuzzchar` and `fuzzstr`, from the result `r` of
`rand()`: `c = (int) (rand() % m) + h`, turned into 0 when it is 127 and both
`-0` and `-p` are given. -/
def randomChar (g : Globals) (m h : Int) (r : Nat) : Int :=
  let c := Int.tmod r m + h
  if g.flag0 ≠ 0 ∧ g.flaga = 0 ∧ c = 127 then 0 else c

/-- The loop of `fuzzchar( m, h )`, with `n` passes left. -/
def fuzzcharLoop (g : Globals) (env : Env) (m h : Int) : Nat → State → State
  | 0, s => s
  | n + 1, s =>
    let c := randomChar g m h (env.rand s.rands)
    fuzzcharLoop g env m h n (putch g env c { s with rands := s.rands + 1 })

/-- The function `fuzzchar( m, h )`. -/
def fuzzchar (g : Globals) (env : Env) (m h : Int) (s : State) : State :=
  fuzzcharLoop g env m h g.length.toNat s

/-- The inner loop of `fuzzstr( m, h )`, with `n` characters of the line
left. -/
def fuzzstrLine (g : Globals) (env : Env) (m h : Int) : Nat → State → State
  | 0, s => s
  | n + 1, s =>
    let c := randomChar g m h (env.rand s.rands)
    fuzzstrLine g env m h n (putch g env c { s with rands := s.rands + 1 })

/-- The outer loop of `fuzzstr( m, h )`, with `n` lines left: the length
`l = rand() % flagl`, the line, and the newline. -/
def fuzzstrLoop (g : Globals) (env : Env) (m h : Int) : Nat → State → State
  | 0, s => s
  | n + 1, s =>
    let l := Int.tmod (env.rand s.rands) g.flagl
    let s := fuzzstrLine g env m h l.toNat { s with rands := s.rands + 1 }
    fuzzstrLoop g env m h n (putch g env 10 s)

/-- The function `fuzzstr( m, h )`. -/
def fuzzstr (g : Globals) (env : Env) (m h : Int) (s : State) : State :=
  fuzzstrLoop g env m h g.length.toNat s

/-- The values of `m` and `h` that `fuzz()` computes from the flags. -/
def fuzzRange (g : Globals) : Int × Int :=
  let h : Int := 1
  let m : Int := 255
  let (m, h) := if g.flag0 ≠ 0 then ((256 : Int), (0 : Int)) else (m, h)
  if g.flaga = 0 then (95 + (if g.flag0 ≠ FALSE then 1 else 0), 32) else (m, h)

/-- The function `fuzz()`. -/
def fuzz (g : Globals) (env : Env) (s : State) : State :=
  if g.flagl ≠ 0 then fuzzstr g env (fuzzRange g).1 (fuzzRange g).2 s
  else fuzzchar g env (fuzzRange g).1 (fuzzRange g).2 s

/-- The range of bytes the options select: 1..255 by default, 0..255 with
`-0`, 32..126 with `-p`, and 0 or 32..126 with `-p` and `-0`. The option `-p`
is `flaga = FALSE`, the option `-0` is `flag0 = TRUE`. -/
def inRange (g : Globals) (b : Nat) : Prop :=
  if g.flaga ≠ 0 then
    (if g.flag0 ≠ 0 then b ≤ 255 else 1 ≤ b ∧ b ≤ 255)
  else
    (if g.flag0 ≠ 0 then b = 0 ∨ (32 ≤ b ∧ b ≤ 126) else 32 ≤ b ∧ b ≤ 126)

/-- The bytes of a sequence of lines, each followed by a newline. -/
def linesBytes (lines : List (List Nat)) : List Nat :=
  (lines.map fun line => line ++ [10]).flatten

/-! ### myputs -/

/-- The test `isdigit( c )` on a character of the epilog. -/
def isdigit (c : Nat) : Bool := decide (48 ≤ c ∧ c ≤ 57)

/-- What `sscanf( s, "%3d", &c )` stores in `c` when `s` begins with a
digit: the decimal value of the digits at the start of `s`, three at most. -/
def scan3d (s : List Nat) : Int :=
  ((s.take 3).takeWhile isdigit).foldl (fun v d => v * 10 + ((d : Int) - 48)) 0

/-- The function `oct2dec( i )`: the digits that `sprintf( s, "%d", i )`
writes are read as a number in base 8. -/
def oct2dec (i : Int) : Int :=
  (toString i).data.foldl (fun r ch => r * 8 + ((ch.toNat : Int) - 48)) 0

/-- An undefined read: the embedding stops here. -/
def undefinedRead (s : State) : State :=
  { s with status := Status.fault }

/-- The function `myputs( s )`. The list is the memory from `s` to the end
of the array `epilog`, the terminating 0 and what follows it included; `c` is
the local variable `c`, `none` while nothing has been stored in it; `scan2x`
gives what `sscanf( s, "%2x", &c )` stores in `c` for the text at `s`, `none`
when it stores nothing. After an escape made of digits the loop
`for( c = 0 ; c < 3 && isdigit( *s ) ; c++ )` has looked at the character
after each digit it passed (`head?`), and `c` holds the number of digits. -/
def myputs (g : Globals) (env : Env) (scan2x : List Nat → Option Int) :
    List Nat → Option Int → State → State
  | [], _, st => undefinedRead st
  | ch :: rest, c, st =>
    if ch = 0 then st
    else if ch = 92 then
      match rest with
      | [] => undefinedRead st
      | e :: rest1 =>
        if e = 98 then myputs g env scan2x rest1 c (putch g env 8 st)
        else if e = 102 then myputs g env scan2x rest1 c (putch g env 12 st)
        else if e = 110 then myputs g env scan2x rest1 c (putch g env 10 st)
        else if e = 114 then myputs g env scan2x rest1 c (putch g env 13 st)
        else if e = 116 then myputs g env scan2x rest1 c (putch g env 13 st)
        else if e = 118 then myputs g env scan2x rest1 c (putch g env 11 st)
        else if e = 120 then
          match rest1 with
          | [] => undefinedRead st
          | _ :: rest2 =>
            match (scan2x rest1).orElse (fun _ => c) with
            | none => undefinedRead st
            | some v =>
              match rest2 with
              | [] => undefinedRead (putch g env v st)
              | _ :: rest3 => myputs g env scan2x rest3 (some v) (putch g env v st)
        else if isdigit e = true then
          let st := putch g env (oct2dec (scan3d (e :: rest1))) st
          match rest1.head? with
          | none => undefinedRead st
          | some d2 =>
            if isdigit d2 = true then
              match rest1 with
              | [] => undefinedRead st
              | _ :: rest2 =>
                match rest2.head? with
                | none => undefinedRead st
                | some d3 =>
                  if isdigit d3 = true then
                    match rest2 with
                    | [] => undefinedRead st
                    | _ :: rest3 => myputs g env scan2x rest3 (some 3) st
                  else myputs g env scan2x rest2 (some 2) st
            else myputs g env scan2x rest1 (some 1) st
        else myputs g env scan2x rest1 c (putch g env e st)
    else myputs g env scan2x rest c (putch g env ch st)
termination_by structural s => s

/-- A `sscanf( s, "%2x", &c )` that stores nothing. -/
def noHex : List Nat → Option Int := fun _ => none

/-- The value of a sequence of octal digits. -/
def octalValue (digits : List Nat) : Int :=
  digits.foldl (fun v d => v * 8 + ((d : Int) - 48)) 0

/-- The test for an octal digit, one of the characters 0 to 7. -/
def isOctalDigit (c : Nat) : Bool := decide (48 ≤ c ∧ c ≤ 55)

/-- The options `-p -0` with the length 3. -/
def printableWithZero : Globals :=
  { initialGlobals with flag0 := TRUE, flaga := FALSE, length := 3 }

/-- A library whose `rand()` returns 95, 0, 31 and then 0, and whose every
`write` returns 1. -/
def sampleEnv : Env :=
  { rand := fun k => if k = 0 then 95 else if k = 2 then 31 else 0,
    wout := fun _ => 1,
    wfile := fun _ => 1 }

end Fuzz

namespace Ptyjig

/-! # Theorems -/

/-! ## The fields of the two kinds of status word -/

theorem w_stopsig_exitedWord (n : Nat) (h : n < 256) : w_stopsig (exitedWord n) = n := by
  unfold w_stopsig exitedWord; omega

theorem w_retcode_exitedWord (n : Nat) (h : n < 256) : w_retcode (exitedWord n) = n := by
  unfold w_retcode exitedWord; omega

theorem w_termsig_exitedWord (n : Nat) : w_termsig (exitedWord n) = 0 := by
  unfold w_termsig exitedWord; omega

theorem w_termsig_signaledWord (sig : Nat) (core : Bool) (h : sig < 128) :
    w_termsig (signaledWord sig core) = sig := by
  unfold w_termsig signaledWord; split <;> omega

theorem w_stopsig_signaledWord (sig : Nat) (core : Bool) (h : sig < 128) :
    w_stopsig (signaledWord sig core) = 0 := by
  unfold w_stopsig signaledWord; split <;> omega

theorem w_coredump_signaledWord (sig : Nat) (core : Bool) (h : sig < 128) :
    w_coredump (signaledWord sig core) = if core then 1 else 0 := by
  unfold w_coredump signaledWord; split <;> omega

theorem mesg_pname_isSome (sig : Nat) (h1 : 1 ≤ sig) (h32 : sig ≤ 32) :
    ∃ pname, mesg_pname sig = some pname := by
  interval_cases sig <;> exact ⟨_, rfl⟩

theorem mesg_pname_none (sig : Nat) (h : 32 < sig) : mesg_pname sig = none := by
  have hlen : mesg.length ≤ sig := by
    have : mesg.length = 33 := rfl
    omega
  unfold mesg_pname
  rw [List.getElem?_eq_none hlen]

/-! ## What done and the calls leave unchanged -/

@[simp] theorem done_status (s : Proc) : (done s).status = s.status := by
  unfold done; dsimp only; split <;> split <;> rfl

@[simp] theorem done_execPID (s : Proc) : (done s).execPID = s.execPID := by
  unfold done; dsimp only; split <;> split <;> rfl

@[simp] theorem done_writerPID (s : Proc) : (done s).writerPID = s.writerPID := by
  unfold done; dsimp only; split <;> split <;> rfl

@[simp] theorem done_readerPID (s : Proc) : (done s).readerPID = s.readerPID := by
  unfold done; dsimp only; split <;> split <;> rfl

@[simp] theorem done_progname (s : Proc) : (done s).progname = s.progname := by
  unfold done; dsimp only; split <;> split <;> rfl

@[simp] theorem sysKill_status (pid : Int) (sig : Signal) (s : Proc) :
    (sysKill pid sig s).status = s.status := rfl

@[simp] theorem sysKill_execPID (pid : Int) (sig : Signal) (s : Proc) :
    (sysKill pid sig s).execPID = s.execPID := rfl

@[simp] theorem sysKill_writerPID (pid : Int) (sig : Signal) (s : Proc) :
    (sysKill pid sig s).writerPID = s.writerPID := rfl

@[simp] theorem sysKill_readerPID (pid : Int) (sig : Signal) (s : Proc) :
    (sysKill pid sig s).readerPID = s.readerPID := rfl

@[simp] theorem sysKill_progname (pid : Int) (sig : Signal) (s : Proc) :
    (sysKill pid sig s).progname = s.progname := rfl

@[simp] theorem sysSignal_status (sig : Signal) (d : Disposition) (s : Proc) :
    (sysSignal sig d s).status = s.status := by
  unfold sysSignal; cases sig <;> rfl

@[simp] theorem sysSignal_execPID (sig : Signal) (d : Disposition) (s : Proc) :
    (sysSignal sig d s).execPID = s.execPID := by
  unfold sysSignal; cases sig <;> rfl

@[simp] theorem sysSignal_writerPID (sig : Signal) (d : Disposition) (s : Proc) :
    (sysSignal sig d s).writerPID = s.writerPID := by
  unfold sysSignal; cases sig <;> rfl

@[simp] theorem sysSignal_readerPID (sig : Signal) (d : Disposition) (s : Proc) :
    (sysSignal sig d s).readerPID = s.readerPID := by
  unfold sysSignal; cases sig <;> rfl

@[simp] theorem sysSignal_progname (sig : Signal) (d : Disposition) (s : Proc) :
    (sysSignal sig d s).progname = s.progname := by
  unfold sysSignal; cases sig <;> rfl

@[simp] theorem sysExit_status (code : Int) (s : Proc) :
    (sysExit code s).status = Status.exited code := rfl

@[simp] theorem fprintfStderr_status (text : String) (s : Proc) :
    (fprintfStderr text s).status = s.status := rfl

@[simp] theorem stderrText_sysKill (pid : Int) (sig : Signal) (s : Proc) :
    stderrText (sysKill pid sig s) = stderrText s := by
  simp [stderrText, sysKill]

@[simp] theorem stderrText_sysSignal (sig : Signal) (d : Disposition) (s : Proc) :
    stderrText (sysSignal sig d s) = stderrText s := by
  unfold sysSignal; cases sig <;> simp [stderrText]

@[simp] theorem stderrText_sysExit (code : Int) (s : Proc) :
    stderrText (sysExit code s) = stderrText s := rfl

@[simp] theorem stderrText_fprintfStderr (text : String) (s : Proc) :
    stderrText (fprintfStderr text s) = stderrText s ++ [text] := by
  simp [stderrText, fprintfStderr]

@[simp] theorem stderrText_done (s : Proc) : stderrText (done s) = stderrText s := by
  unfold done stderrText; dsimp only; split <;> split <;> simp

/-- The handler on a child that exited normally with a status other than the
value of SIGTSTP: it exits with that status and writes nothing to stderr. -/
theorem sigchld_exited (t : Nat) (pid : Int) (n : Nat) (s : Proc)
    (hpid : pid ≠ 0) (hn : n < 256) (hne : n ≠ t) :
    (sigchld t pid (exitedWord n) s).status = Status.exited n ∧
      stderrText (sigchld t pid (exitedWord n) s) = stderrText s := by
  unfold sigchld
  rw [w_stopsig_exitedWord n hn, w_termsig_exitedWord, w_retcode_exitedWord n hn]
  simp only [if_pos hpid, if_neg hne, ne_eq, not_true_eq_false, if_false]
  refine ⟨by simp, ?_⟩
  simp only [stderrText_sysExit]
  split <;> split <;> simp

/-- The handler on a child killed by a signal that has an entry in `mesg`:
one line on stderr, and exit with the signal number. -/
theorem sigchld_signaled (t : Nat) (pid : Int) (sig : Nat) (core : Bool) (s : Proc)
    (hpid : pid ≠ 0) (ht : 0 < t) (h1 : 1 ≤ sig) (h32 : sig ≤ 32) :
    ∃ pname, mesg_pname sig = some pname ∧
      (sigchld t pid (signaledWord sig core) s).status = Status.exited sig ∧
      stderrText (sigchld t pid (signaledWord sig core) s) = stderrText s ++
        ["ptyjig: " ++ s.progname ++ ": " ++ pname ++
          (if core then " (core dumped)" else "") ++ "\n"] := by
  obtain ⟨pname, hp⟩ := mesg_pname_isSome sig h1 h32
  refine ⟨pname, hp, ?_⟩
  have h0 : (0 : Nat) ≠ t := by omega
  have hs : sig ≠ 0 := by omega
  unfold sigchld
  rw [w_stopsig_signaledWord sig core (by omega), w_termsig_signaledWord sig core (by omega),
    w_coredump_signaledWord sig core (by omega), hp]
  simp only [if_pos hpid, if_neg h0, ne_eq, hs, not_false_eq_true, if_true]
  constructor
  · simp
  · simp only [stderrText_sysExit, stderrText_fprintfStderr]
    cases core <;> split <;> split <;> simp

/-! ## The exit status computed by sigchld -/

/-- C1 (the code departs from the claim): whatever value SIGTSTP has, when the
target exits normally with that value as its status, the handler reads the
status through `w_stopsig`, takes the branch for a stopped child, sends
SIGCONT to the reaped pid and exits with status 0, not with the status of the
target. -/
theorem sigchld_normal_exit_SIGTSTP (t : Nat) (s : Proc)
    (hexec : s.execPID ≠ 0) (ht : t < 256) :
    (sigchld t s.execPID (exitedWord t) s).status = Status.exited 0 ∧
      (sigchld t s.execPID (exitedWord t) s).trace =
        s.trace ++ [Event.kill s.execPID Signal.SIGCONT] := by
  unfold sigchld
  rw [w_stopsig_exitedWord t ht]
  simp [hexec, sysExit, sysKill]

/-- C1, at SIGTSTP = 20 and a target that called `exit( 20 )`: the
controller exits with status 0. -/
theorem sigchld_normal_exit_SIGTSTP_witness :
    (controller 0 0 5 6 7 "cmd").execPID ≠ 0 ∧ 20 < 256 ∧ exitedWord 20 = 20 <<< 8 ∧
      (sigchld 20 7 (exitedWord 20) (controller 0 0 5 6 7 "cmd")).status = Status.exited 0 ∧
      (sigchld 20 7 (exitedWord 20) (controller 0 0 5 6 7 "cmd")).trace =
        [Event.kill 7 Signal.SIGCONT] :=
  ⟨by decide, by decide, by decide,
    sigchld_normal_exit_SIGTSTP 20 (controller 0 0 5 6 7 "cmd") (by decide) (by decide)⟩

/-- The entry of `mesg` behind the text that `mesg_pname` returns. -/
theorem mesg_entry (sig : Nat) (pname : String) (h1 : 1 ≤ sig) (h32 : sig ≤ 32)
    (hp : mesg_pname sig = some pname) :
    ∃ m : Mesg, mesg[sig]? = some m ∧ m.pname = some pname ∧
      pname = (["Hangup", "Interrupt", "Quit", "Illegal instruction", "Trace/BPT trap",
        "IOT trap", "EMT trap", "Floating exception", "Killed", "Bus error",
        "Segmentation fault", "Bad system call", "Broken pipe", "Alarm clock", "Terminated",
        "Urgent I/O condition", "Stopped (signal)", "Stopped", "Continued", "Child exited",
        "Stopped (tty input)", "Stopped (tty output)", "I/O possible",
        "Cputime limit exceeded", "Filesize limit exceeded", "Virtual timer expired",
        "Profiling timer expired", "Window size changed", "Signal 29",
        "User defined signal 1", "User defined signal 2", "Signal 32"] : List String).getD
        (sig - 1) "" := by
  interval_cases sig <;>
    (have hq : some _ = some pname := hp
     obtain rfl := Option.some.inj hq
     exact ⟨_, rfl, rfl, rfl⟩)

/-- C2: for a signal number with an entry in `mesg` (1..32) and either value
of the core-dump flag, the handler that reaps the target killed by that
signal writes to stderr the one line "ptyjig: <progname>: <description>",
with " (core dumped)" before the newline exactly when the flag is set, and
exits with the signal number. The description is the `pname` of the entry
`mesg[sig]`, which is the text listed here for that signal number: "Hangup"
for 1, "Interrupt" for 2, and so on to "Signal 32". -/
theorem sigchld_signal_death (t : Nat) (sig : Nat) (core : Bool) (s : Proc)
    (ht : 0 < t) (hexec : s.execPID ≠ 0) (h1 : 1 ≤ sig) (h32 : sig ≤ 32) :
    ∃ (m : Mesg) (pname : String), mesg[sig]? = some m ∧ m.pname = some pname ∧
      pname = (["Hangup", "Interrupt", "Quit", "Illegal instruction", "Trace/BPT trap",
        "IOT trap", "EMT trap", "Floating exception", "Killed", "Bus error",
        "Segmentation fault", "Bad system call", "Broken pipe", "Alarm clock", "Terminated",
        "Urgent I/O condition", "Stopped (signal)", "Stopped", "Continued", "Child exited",
        "Stopped (tty input)", "Stopped (tty output)", "I/O possible",
        "Cputime limit exceeded", "Filesize limit exceeded", "Virtual timer expired",
        "Profiling timer expired", "Window size changed", "Signal 29",
        "User defined signal 1", "User defined signal 2", "Signal 32"] : List String).getD
        (sig - 1) "" ∧
      (sigchld t s.execPID (signaledWord sig core) s).status = Status.exited sig ∧
      stderrText (sigchld t s.execPID (signaledWord sig core) s) = stderrText s ++
        ["ptyjig: " ++ s.progname ++ ": " ++ pname ++
          (if core then " (core dumped)" else "") ++ "\n"] := by
  obtain ⟨pname, hp, hs, he⟩ := sigchld_signaled t s.execPID sig core s hexec ht h1 h32
  obtain ⟨m, m1, m2, m3⟩ := mesg_entry sig pname h1 h32 hp
  exact ⟨m, pname, m1, m2, m3, hs, he⟩

/-- C2 at SIGSEGV (11) with a core dump and at SIGHUP (1) without one, for
the command "cat": the lines are "ptyjig: cat: Segmentation fault (core
dumped)" and "ptyjig: cat: Hangup", and the exit statuses 11 and 1. -/
theorem sigchld_signal_death_witness :
    0 < 20 ∧ (controller 0 0 5 6 7 "cat").execPID ≠ 0 ∧ 1 ≤ 11 ∧ 11 ≤ 32 ∧
    mesg[11]? = some ⟨some "SEGV", some "Segmentation fault"⟩ ∧
    (sigchld 20 7 (signaledWord 11 true) (controller 0 0 5 6 7 "cat")).status =
      Status.exited 11 ∧
    stderrText (sigchld 20 7 (signaledWord 11 true) (controller 0 0 5 6 7 "cat")) =
      ["ptyjig: cat: Segmentation fault (core dumped)\n"] ∧
    stderrText (sigchld 20 7 (signaledWord 1 false) (controller 0 0 5 6 7 "cat")) =
      ["ptyjig: cat: Hangup\n"] ∧
    ∃ (m : Mesg) (pname : String), mesg[11]? = some m ∧ m.pname = some pname ∧
      pname = (["Hangup", "Interrupt", "Quit", "Illegal instruction", "Trace/BPT trap",
        "IOT trap", "EMT trap", "Floating exception", "Killed", "Bus error",
        "Segmentation fault", "Bad system call", "Broken pipe", "Alarm clock", "Terminated",
        "Urgent I/O condition", "Stopped (signal)", "Stopped", "Continued", "Child exited",
        "Stopped (tty input)", "Stopped (tty output)", "I/O possible",
        "Cputime limit exceeded", "Filesize limit exceeded", "Virtual timer expired",
        "Profiling timer expired", "Window size changed", "Signal 29",
        "User defined signal 1", "User defined signal 2", "Signal 32"] : List String).getD
        (11 - 1) "" ∧
      (sigchld 20 (controller 0 0 5 6 7 "cat").execPID (signaledWord 11 true)
        (controller 0 0 5 6 7 "cat")).status = Status.exited (11 : Nat) ∧
      stderrText (sigchld 20 (controller 0 0 5 6 7 "cat").execPID (signaledWord 11 true)
        (controller 0 0 5 6 7 "cat")) = stderrText (controller 0 0 5 6 7 "cat") ++
        ["ptyjig: " ++ (controller 0 0 5 6 7 "cat").progname ++ ": " ++ pname ++
          (if true then " (core dumped)" else "") ++ "\n"] :=
  ⟨by decide, by decide, by decide, by decide, by decide, by decide, by decide, by decide,
    sigchld_signal_death 20 11 true (controller 0 0 5 6 7 "cat")
      (by decide) (by decide) (by decide) (by decide)⟩

/-- C3 (as stated, false): a target that exits normally with status 1 and a
target killed by signal 1 give the controller the same exit status, 1. -/
theorem sigchld_status_collision :
    (sigchld 20 7 (exitedWord 1) (controller 0 0 5 6 7 "cmd")).status = Status.exited 1 ∧
    (sigchld 20 7 (signaledWord 1 false) (controller 0 0 5 6 7 "cmd")).status =
      Status.exited 1 := by
  decide

/-- C3 (amended): for a normal exit with status n (0..255, other than the
value of SIGTSTP) and a death by a signal with an entry in `mesg` (1..32),
the controller exits with n in the first case and with the signal number in
the second, so the two exit statuses differ exactly when n differs from the
signal number; what always differs is stderr, to which the handler adds
nothing in the first case and the diagnostic line in the second. -/
theorem sigchld_status_differs_iff (t n sig : Nat) (core : Bool) (s : Proc)
    (ht : 0 < t) (hexec : s.execPID ≠ 0) (hn : n < 256) (hnt : n ≠ t)
    (h1 : 1 ≤ sig) (h32 : sig ≤ 32) :
    (sigchld t s.execPID (exitedWord n) s).status = Status.exited n ∧
    (sigchld t s.execPID (signaledWord sig core) s).status = Status.exited sig ∧
    ((sigchld t s.execPID (exitedWord n) s).status ≠
        (sigchld t s.execPID (signaledWord sig core) s).status ↔ n ≠ sig) ∧
    stderrText (sigchld t s.execPID (exitedWord n) s) = stderrText s ∧
    stderrText (sigchld t s.execPID (signaledWord sig core) s) ≠ stderrText s := by
  obtain ⟨hA, hAe⟩ := sigchld_exited t s.execPID n s hexec hn hnt
  obtain ⟨pname, -, hB, hBe⟩ := sigchld_signaled t s.execPID sig core s hexec ht h1 h32
  refine ⟨hA, hB, ?_, hAe, ?_⟩
  · rw [hA, hB]
    constructor
    · intro h hns
      exact h (by rw [hns])
    · intro h heq
      injection heq with h2
      exact h (by exact_mod_cast h2)
  · rw [hBe]
    intro h
    have := congrArg List.length h
    simp at this

/-- C3 (amended) at statuses 3 and signal 11: 3 and 11 differ. -/
theorem sigchld_status_differs_iff_witness :
    0 < 20 ∧ (controller 0 0 5 6 7 "cmd").execPID ≠ 0 ∧ 3 < 256 ∧ 3 ≠ 20 ∧ 1 ≤ 11 ∧ 11 ≤ 32 ∧
    (sigchld 20 (controller 0 0 5 6 7 "cmd").execPID (exitedWord 3)
      (controller 0 0 5 6 7 "cmd")).status = Status.exited (3 : Nat) ∧
    (sigchld 20 (controller 0 0 5 6 7 "cmd").execPID (signaledWord 11 false)
      (controller 0 0 5 6 7 "cmd")).status = Status.exited (11 : Nat) ∧
    ((sigchld 20 (controller 0 0 5 6 7 "cmd").execPID (exitedWord 3)
        (controller 0 0 5 6 7 "cmd")).status ≠
      (sigchld 20 (controller 0 0 5 6 7 "cmd").execPID (signaledWord 11 false)
        (controller 0 0 5 6 7 "cmd")).status ↔ 3 ≠ 11) ∧
    stderrText (sigchld 20 (controller 0 0 5 6 7 "cmd").execPID (exitedWord 3)
      (controller 0 0 5 6 7 "cmd")) = stderrText (controller 0 0 5 6 7 "cmd") ∧
    stderrText (sigchld 20 (controller 0 0 5 6 7 "cmd").execPID (signaledWord 11 false)
      (controller 0 0 5 6 7 "cmd")) ≠ stderrText (controller 0 0 5 6 7 "cmd") :=
  ⟨by decide, by decide, by decide, by decide, by decide, by decide,
    sigchld_status_differs_iff 20 3 11 false (controller 0 0 5 6 7 "cmd")
      (by decide) (by decide) (by decide) (by decide) (by decide) (by decide)⟩

/-! ## writer -/

@[simp] theorem ptyBytes_append (a b : List WEvent) :
    ptyBytes (a ++ b) = ptyBytes a ++ ptyBytes b := by
  simp [ptyBytes]

@[simp] theorem fileiBytes_append (a b : List WEvent) :
    fileiBytes (a ++ b) = fileiBytes a ++ fileiBytes b := by
  simp [fileiBytes]

@[simp] theorem perrors_append (a b : List WEvent) :
    perrors (a ++ b) = perrors a ++ perrors b := by
  simp [perrors]

/-- A pass of the loop body in which both writes return 1. -/
theorem writerBody_ok (g : WriterGlobals) (rpty rfile : Int) (c : Nat) (tr : List WEvent)
    (hp : rpty = 1) (hf : g.flagi ≠ 0 → rfile = 1) :
    ∃ tr1, writerBody g rpty rfile c tr = (tr1, true) ∧
      ptyBytes tr1 = ptyBytes tr ++ [c] ∧
      fileiBytes tr1 = fileiBytes tr ++
        (if g.flagi ≠ 0 then [if c = 13 then 10 else c] else []) ∧
      perrors tr1 = perrors tr := by
  unfold writerBody
  by_cases hi : g.flagi ≠ 0
  · have hf1 := hf hi
    by_cases hd : g.flagd ≠ 0
    · simp [hp, hi, hf1, hd, ptyBytes, fileiBytes, perrors]
    · simp [hp, hi, hf1, hd, ptyBytes, fileiBytes, perrors]
  · by_cases hd : g.flagd ≠ 0
    · simp [hp, hi, hd, ptyBytes, fileiBytes, perrors]
    · simp [hp, hi, hd, ptyBytes, fileiBytes, perrors]

/-- A pass of the loop body in which the write to the pty returns 1 and the
write to the capture file does not. -/
theorem writerBody_capture_fails (g : WriterGlobals) (rpty rfile : Int) (c : Nat)
    (tr : List WEvent) (hi : g.flagi ≠ 0) (hp : rpty = 1) (hf : rfile ≠ 1) :
    writerBody g rpty rfile c tr =
      (tr ++ [WEvent.write_pty c] ++ [WEvent.perror g.namei], false) := by
  unfold writerBody
  simp [hp, hi, hf]

/-- The loop when every write returns 1. -/
theorem writerLoop_ok (g : WriterGlobals) (wpty wfile : Nat → Int) (input : List Nat) :
    ∀ (k : Nat) (tr : List WEvent),
      (∀ j, j < input.length → wpty (k + j) = 1) →
      (g.flagi ≠ 0 → ∀ j, j < input.length → wfile (k + j) = 1) →
      ptyBytes (writerLoop g wpty wfile k input tr) = ptyBytes tr ++ input ∧
      fileiBytes (writerLoop g wpty wfile k input tr) = fileiBytes tr ++
        (if g.flagi ≠ 0 then input.map (fun c => if c = 13 then 10 else c) else []) ∧
      perrors (writerLoop g wpty wfile k input tr) = perrors tr := by
  induction input with
  | nil =>
    intro k tr _ _
    simp [writerLoop]
  | cons c rest ih =>
    intro k tr hp hf
    have hp0 : wpty k = 1 := by simpa using hp 0 (by simp)
    have hf0 : g.flagi ≠ 0 → wfile k = 1 := fun hi => by simpa using hf hi 0 (by simp)
    obtain ⟨tr1, hb, h1, h2, h3⟩ := writerBody_ok g (wpty k) (wfile k) c tr hp0 hf0
    have hp' : ∀ j, j < rest.length → wpty (k + 1 + j) = 1 := fun j hj => by
      have := hp (j + 1) (by simpa using hj)
      rwa [show k + 1 + j = k + (j + 1) by omega]
    have hf' : g.flagi ≠ 0 → ∀ j, j < rest.length → wfile (k + 1 + j) = 1 := fun hi j hj => by
      have := hf hi (j + 1) (by simpa using hj)
      rwa [show k + 1 + j = k + (j + 1) by omega]
    obtain ⟨i1, i2, i3⟩ := ih (k + 1) tr1 hp' hf'
    simp only [writerLoop, hb]
    rw [i1, i2, i3, h1, h2, h3]
    refine ⟨by simp, ?_, rfl⟩
    by_cases hi : g.flagi ≠ 0
    · simp [hi]
    · simp [hi]

/-- The loop when the capture write of pass `p` is the first write that does
not return 1. -/
theorem writerLoop_capture_fails (g : WriterGlobals) (wpty wfile : Nat → Int)
    (hi : g.flagi ≠ 0) (input : List Nat) :
    ∀ (p k : Nat) (tr : List WEvent), p < input.length →
      (∀ j, j ≤ p → wpty (k + j) = 1) →
      (∀ j, j < p → wfile (k + j) = 1) →
      wfile (k + p) ≠ 1 →
      ptyBytes (writerLoop g wpty wfile k input tr) = ptyBytes tr ++ input.take (p + 1) ∧
      fileiBytes (writerLoop g wpty wfile k input tr) = fileiBytes tr ++
        (input.take p).map (fun c => if c = 13 then 10 else c) ∧
      perrors (writerLoop g wpty wfile k input tr) = perrors tr ++ [g.namei] := by
  induction input with
  | nil =>
    intro p k tr hlt
    simp at hlt
  | cons c rest ih =>
    intro p k tr hlt hp hf hbad
    have hp0 : wpty k = 1 := by simpa using hp 0 (by omega)
    cases p with
    | zero =>
      have hbad0 : wfile k ≠ 1 := by simpa using hbad
      simp only [writerLoop, writerBody_capture_fails g _ _ c tr hi hp0 hbad0]
      simp [ptyBytes, fileiBytes, perrors]
    | succ q =>
      have hf0 : g.flagi ≠ 0 → wfile k = 1 := fun _ => by simpa using hf 0 (by omega)
      obtain ⟨tr1, hb, h1, h2, h3⟩ := writerBody_ok g (wpty k) (wfile k) c tr hp0 hf0
      have hq : q < rest.length := by simpa using hlt
      have hp' : ∀ j, j ≤ q → wpty (k + 1 + j) = 1 := fun j hj => by
        have := hp (j + 1) (by omega)
        rwa [show k + 1 + j = k + (j + 1) by omega]
      have hf' : ∀ j, j < q → wfile (k + 1 + j) = 1 := fun j hj => by
        have := hf (j + 1) (by omega)
        rwa [show k + 1 + j = k + (j + 1) by omega]
      have hbad' : wfile (k + 1 + q) ≠ 1 := by
        rwa [show k + 1 + q = k + (q + 1) by omega]
      obtain ⟨i1, i2, i3⟩ := ih q (k + 1) tr1 hq hp' hf' hbad'
      simp only [writerLoop, hb]
      rw [i1, i2, i3, h1, h2, h3]
      simp [hi]

/-- What `writer` adds after the loop. -/
theorem writer_eq (g : WriterGlobals) (wpty wfile : Nat → Int) (weof : Int)
    (input : List Nat) :
    writer g wpty wfile weof input =
      writerLoop g wpty wfile 0 input [] ++
        (if g.flage ≠ 0 ∧ weof = 1 then [WEvent.write_pty g.flage] else []) ++
        [WEvent.kill g.readerPID Signal.SIGUSR1] := by
  unfold writer
  by_cases he : g.flage ≠ 0
  · by_cases hw : weof = 1
    · simp [he, hw]
    · simp [he, hw]
  · simp [he]

/-- The bytes `writer` sends to the pty when every write returns 1. -/
theorem writer_ptyBytes_ok (g : WriterGlobals) (wpty wfile : Nat → Int) (weof : Int)
    (input : List Nat)
    (hp : ∀ j, j < input.length → wpty j = 1)
    (hf : g.flagi ≠ 0 → ∀ j, j < input.length → wfile j = 1) (he : weof = 1) :
    ptyBytes (writer g wpty wfile weof input) =
      input ++ (if g.flage ≠ 0 then [g.flage] else []) := by
  obtain ⟨h1, -, -⟩ := writerLoop_ok g wpty wfile input 0 []
    (fun j hj => by simpa using hp j hj) (fun hi j hj => by simpa using hf hi j hj)
  rw [writer_eq, ptyBytes_append, ptyBytes_append, h1]
  by_cases hfe : g.flage ≠ 0
  · simp [hfe, he, ptyBytes]
  · simp [hfe, ptyBytes]

/-- C4: with `-i` (flagi set) and every write of the loop returning 1, the
bytes `writer` writes to the input capture file are the bytes of standard
input, in order, with each 13 (carriage return) replaced by 10 (newline) and
every other byte unchanged; no other write goes to the capture file. -/
theorem writer_capture_file (g : WriterGlobals) (wpty wfile : Nat → Int) (weof : Int)
    (input : List Nat) (hi : g.flagi ≠ 0)
    (hp : ∀ j, j < input.length → wpty j = 1)
    (hf : ∀ j, j < input.length → wfile j = 1) :
    fileiBytes (writer g wpty wfile weof input) =
      input.map (fun c => if c = 13 then 10 else c) := by
  obtain ⟨-, h2, -⟩ := writerLoop_ok g wpty wfile input 0 []
    (fun j hj => by simpa using hp j hj) (fun _ j hj => by simpa using hf j hj)
  rw [writer_eq, fileiBytes_append, fileiBytes_append, h2]
  by_cases hfe : g.flage ≠ 0 ∧ weof = 1
  · simp [hfe, hi, fileiBytes]
  · simp [hfe, hi, fileiBytes]

/-- C4 on the input "a\rb" with `-i in`. -/
theorem writer_capture_file_witness :
    (optionI "in" initialWriterGlobals).flagi ≠ 0 ∧
    fileiBytes (writer (optionI "in" initialWriterGlobals) (fun _ => 1) (fun _ => 1) 1
      [97, 13, 98]) = [97, 10, 98] :=
  ⟨by decide,
    writer_capture_file (optionI "in" initialWriterGlobals) (fun _ => 1) (fun _ => 1) 1
      [97, 13, 98] (by decide) (fun _ _ => rfl) (fun _ _ => rfl)⟩

/-- C5 (as stated, false): with `-i in`, input "ab" and the first write to
the capture file failing, `writer` reports the failure and leaves the loop:
the pty receives "a" and the marker, never "b". -/
theorem capture_write_failure_ends_loop :
    ptyBytes (writer (optionI "in" initialWriterGlobals) (fun _ => 1) (fun _ => -1) 1
      [97, 98]) = [97, 1] ∧
    perrors (writer (optionI "in" initialWriterGlobals) (fun _ => 1) (fun _ => -1) 1
      [97, 98]) = ["in"] ∧
    98 ∉ ptyBytes (writer (optionI "in" initialWriterGlobals) (fun _ => 1) (fun _ => -1) 1
      [97, 98]) := by
  decide

/-- C5 (amended): a failed write to the input capture file is reported with
`perror( namei )` and ends the forward loop. When the capture write of pass
`p` is the first write to fail, the pty has received the input bytes up to
and including byte `p` and none of the later ones (followed by the marker
when that is sent), and the capture file holds the bytes before byte `p`. -/
theorem writer_capture_failure (g : WriterGlobals) (wpty wfile : Nat → Int) (weof : Int)
    (input : List Nat) (p : Nat) (hi : g.flagi ≠ 0) (hlt : p < input.length)
    (hp : ∀ j, j ≤ p → wpty j = 1)
    (hf : ∀ j, j < p → wfile j = 1) (hbad : wfile p ≠ 1) :
    perrors (writer g wpty wfile weof input) = [g.namei] ∧
    ptyBytes (writer g wpty wfile weof input) =
      input.take (p + 1) ++ (if g.flage ≠ 0 ∧ weof = 1 then [g.flage] else []) ∧
    fileiBytes (writer g wpty wfile weof input) =
      (input.take p).map (fun c => if c = 13 then 10 else c) := by
  obtain ⟨h1, h2, h3⟩ := writerLoop_capture_fails g wpty wfile hi input p 0 [] hlt
    (fun j hj => by simpa using hp j hj) (fun j hj => by simpa using hf j hj)
    (by simpa using hbad)
  rw [writer_eq]
  simp only [ptyBytes_append, fileiBytes_append, perrors_append, h1, h2, h3]
  by_cases hfe : g.flage ≠ 0 ∧ weof = 1
  · simp [hfe, ptyBytes, fileiBytes, perrors]
  · simp [hfe, ptyBytes, fileiBytes, perrors]

/-- C5 (amended) on the input "abc" with the capture write of the second
byte failing: the pty receives "ab" and the marker. -/
theorem writer_capture_failure_witness :
    (optionI "in" initialWriterGlobals).flagi ≠ 0 ∧ 1 < [97, 98, 99].length ∧
    perrors (writer (optionI "in" initialWriterGlobals) (fun _ => 1)
      (fun k => if k = 1 then 0 else 1) 1 [97, 98, 99]) = ["in"] ∧
    ptyBytes (writer (optionI "in" initialWriterGlobals) (fun _ => 1)
      (fun k => if k = 1 then 0 else 1) 1 [97, 98, 99]) = [97, 98, 1] ∧
    fileiBytes (writer (optionI "in" initialWriterGlobals) (fun _ => 1)
      (fun k => if k = 1 then 0 else 1) 1 [97, 98, 99]) = [97] :=
  ⟨by decide, by decide,
    writer_capture_failure (optionI "in" initialWriterGlobals) (fun _ => 1)
      (fun k => if k = 1 then 0 else 1) 1 [97, 98, 99] 1 (by decide) (by decide)
      (fun _ _ => rfl) (fun j hj => by interval_cases j; rfl) (by decide)⟩

/-- C6 (the code departs from the claim): when `-e` is not given, `flage`
still holds its initializer TRUE, and with every write returning 1 the bytes
`writer` sends to the pty are the input bytes, unmodified and in order,
followed by the one byte 1, which is not the EOF character 4; with `-e` the
pty receives exactly the input bytes. -/
theorem writer_pty_marker (g : WriterGlobals) (wpty wfile : Nat → Int)
    (input : List Nat) (hg : g.flage = initialWriterGlobals.flage)
    (hp : ∀ j, j < input.length → wpty j = 1)
    (hf : g.flagi ≠ 0 → ∀ j, j < input.length → wfile j = 1) :
    ptyBytes (writer g wpty wfile 1 input) = input ++ [1] ∧
    input ++ [1] ≠ input ++ [4] ∧
    ptyBytes (writer (optionE g) wpty wfile 1 input) = input := by
  have hg1 : g.flage = 1 := hg
  refine ⟨?_, by simp, ?_⟩
  · rw [writer_ptyBytes_ok g wpty wfile 1 input hp hf rfl]
    simp [hg1]
  · rw [writer_ptyBytes_ok (optionE g) wpty wfile 1 input hp hf rfl]
    simp [optionE]

/-- C6 on empty standard input with the default options: the pty receives
the single byte 1. -/
theorem writer_pty_marker_witness :
    initialWriterGlobals.flage = initialWriterGlobals.flage ∧
    ptyBytes (writer initialWriterGlobals (fun _ => 1) (fun _ => 1) 1 []) = [1] ∧
    ([] : List Nat) ++ [1] ≠ [] ++ [4] ∧
    ptyBytes (writer (optionE initialWriterGlobals) (fun _ => 1) (fun _ => 1) 1 []) = [] :=
  ⟨rfl, writer_pty_marker initialWriterGlobals (fun _ => 1) (fun _ => 1) [] rfl
    (fun _ _ => rfl) (fun _ _ _ => rfl)⟩

/-! ## reader -/

theorem readerBody_globals (c : List Nat) (rout rfile : Int) (s : Reader) :
    (readerBody c rout rfile s).flagx = s.flagx ∧
    (readerBody c rout rfile s).flago = s.flago ∧
    (readerBody c rout rfile s).flagt = s.flagt ∧
    (readerBody c rout rfile s).writing = s.writing ∧
    (readerBody c rout rfile s).looping = s.looping := by
  unfold readerBody ualarm
  dsimp only
  split_ifs <;> simp

theorem readerStep_globals (s : Reader) (e : Input) :
    (readerStep s e).flagx = s.flagx ∧ (readerStep s e).flago = s.flago ∧
    (readerStep s e).flagt = s.flagt := by
  unfold readerStep
  split
  · simp
  · cases e with
    | chunk c rout rfile =>
      dsimp only
      split
      · obtain ⟨h1, h2, h3, -, -⟩ := readerBody_globals c rout rfile s
        exact ⟨h1, h2, h3⟩
      · simp
    | eof => dsimp only; split <;> simp [reader_done]
    | sigusr1 => simp [writer_done, ualarm]
    | elapse usecs => dsimp only; split_ifs <;> simp [reader_done]

theorem readerRun_cons (s : Reader) (e : Input) (es : List Input) :
    readerRun s (e :: es) = readerRun (readerStep s e) es := by
  simp [readerRun]

theorem readerRun_append (s : Reader) (es : List Input) (e : Input) :
    readerRun s (es ++ [e]) = readerStep (readerRun s es) e := by
  simp [readerRun]

/-- A pass of the loop body in which every write returns the full count. -/
theorem readerBody_complete (c : List Nat) (rout rfile : Int) (s : Reader)
    (ho : rout = c.length) (hf : rfile = c.length) :
    (readerBody c rout rfile s).status = s.status ∧
    stdoutBytes (readerBody c rout rfile s) =
      stdoutBytes s ++ (if s.flagx = 0 then c else []) ∧
    fileoBytes (readerBody c rout rfile s) =
      fileoBytes s ++ (if s.flago ≠ 0 then c else []) := by
  subst ho hf
  unfold readerBody ualarm stdoutBytes fileoBytes
  dsimp only
  split_ifs <;> simp_all

/-- Outside the loop nothing more is written. -/
theorem readerRun_not_looping (es : List Input) :
    ∀ s : Reader, s.looping = false →
      stdoutBytes (readerRun s es) = stdoutBytes s ∧
      fileoBytes (readerRun s es) = fileoBytes s := by
  induction es with
  | nil => intro s _; simp [readerRun]
  | cons e es ih =>
    intro s hl
    rw [readerRun_cons]
    have key : (readerStep s e).looping = false ∧
        stdoutBytes (readerStep s e) = stdoutBytes s ∧
        fileoBytes (readerStep s e) = fileoBytes s := by
      unfold readerStep
      split
      · exact ⟨hl, rfl, rfl⟩
      · cases e with
        | chunk c rout rfile => simp [hl]
        | eof => simp [hl]
        | sigusr1 => simp [writer_done, ualarm, hl, stdoutBytes, fileoBytes]
        | elapse usecs =>
          dsimp only
          split_ifs <;> simp [reader_done, hl, stdoutBytes, fileoBytes]
    obtain ⟨k1, k2, k3⟩ := key
    obtain ⟨i1, i2⟩ := ih _ k1
    rw [i1, i2, k2, k3]
    exact ⟨rfl, rfl⟩

theorem chunkBytes_cons (e : Input) (es : List Input) :
    chunkBytes (e :: es) = chunkBytes [e] ++ chunkBytes es := by
  cases e <;> simp [chunkBytes]

/-- One input other than the end of the pty output, with complete writes,
inside the loop. -/
theorem readerStep_complete (s : Reader) (e : Input)
    (hr : s.status = Status.running) (hl : s.looping = true) (he : e ≠ Input.eof)
    (hw : writesComplete [e]) :
    (readerStep s e).status = Status.running ∧ (readerStep s e).looping = true ∧
    fileoBytes (readerStep s e) =
      fileoBytes s ++ (if s.flago ≠ 0 then chunkBytes [e] else []) ∧
    stdoutBytes (readerStep s e) =
      stdoutBytes s ++ (if s.flagx = 0 then chunkBytes [e] else []) := by
  unfold readerStep
  rw [if_neg (by simp [hr])]
  cases e with
  | chunk c rout rfile =>
    have hc := hw (Input.chunk c rout rfile) (by simp)
    dsimp only at hc ⊢
    by_cases hne : c ≠ []
    · rw [if_pos ⟨hl, hne⟩]
      obtain ⟨b1, b2, b3⟩ := readerBody_complete c rout rfile s hc.1 hc.2
      obtain ⟨-, -, -, -, g5⟩ := readerBody_globals c rout rfile s
      refine ⟨by rw [b1, hr], by rw [g5, hl], ?_, ?_⟩
      · rw [b3]; simp [chunkBytes]
      · rw [b2]; simp [chunkBytes]
    · have hnil : c = [] := by simpa using hne
      subst hnil
      simp [hr, hl, chunkBytes]
  | eof => exact absurd rfl he
  | sigusr1 => simp [writer_done, ualarm, hr, hl, chunkBytes, stdoutBytes, fileoBytes]
  | elapse usecs =>
    dsimp only
    split_ifs <;> simp [reader_done, hr, hl, chunkBytes, stdoutBytes, fileoBytes]

/-- The bytes written by a run in which every write is complete. -/
theorem readerRun_complete (es : List Input) :
    ∀ s : Reader, s.status = Status.running → s.looping = true → writesComplete es →
      fileoBytes (readerRun s es) =
        fileoBytes s ++ (if s.flago ≠ 0 then chunkBytes (beforeEof es) else []) ∧
      stdoutBytes (readerRun s es) =
        stdoutBytes s ++ (if s.flagx = 0 then chunkBytes (beforeEof es) else []) := by
  induction es with
  | nil => intro s _ _ _; simp [readerRun, beforeEof, chunkBytes]
  | cons e es ih =>
    intro s hr hl hw
    rw [readerRun_cons]
    by_cases he : e = Input.eof
    · subst he
      have hstep : (readerStep s Input.eof).looping = false ∧
          stdoutBytes (readerStep s Input.eof) = stdoutBytes s ∧
          fileoBytes (readerStep s Input.eof) = fileoBytes s := by
        simp [readerStep, hr, hl, reader_done, stdoutBytes, fileoBytes]
      obtain ⟨n1, n2⟩ := readerRun_not_looping es _ hstep.1
      rw [n1, n2, hstep.2.1, hstep.2.2]
      simp [beforeEof, chunkBytes]
    · have hw1 : writesComplete [e] := fun x hx => hw x (by
        rw [List.mem_singleton] at hx; subst hx; simp)
      have hw2 : writesComplete es := fun x hx => hw x (List.mem_cons_of_mem _ hx)
      obtain ⟨s1, s2, s3, s4⟩ := readerStep_complete s e hr hl he hw1
      obtain ⟨g1, g2, -⟩ := readerStep_globals s e
      obtain ⟨i1, i2⟩ := ih _ s1 s2 hw2
      have hb : beforeEof (e :: es) = e :: beforeEof es := by
        simp [beforeEof, List.takeWhile_cons, he]
      rw [i1, i2, s3, s4, g1, g2, hb, chunkBytes_cons e (beforeEof es)]
      constructor
      · by_cases ho : s.flago ≠ 0
        · simp [ho]
        · simp [ho]
      · by_cases hx : s.flagx = 0
        · simp [hx]
        · simp [hx]

/-- C7 (as stated, false): with `-o` and `-x` both given, a chunk "A" is
written to the output capture file and nothing is written to standard
output. -/
theorem reader_capture_differs_from_stdout :
    writesComplete [Input.chunk [65] 1 1] ∧
    fileoBytes (reader TRUE TRUE 2000000 "out" 7 [Input.chunk [65] 1 1])
      = [65] ∧
    stdoutBytes (reader TRUE TRUE 2000000 "out" 7 [Input.chunk [65] 1 1])
      = [] := by
  refine ⟨?_, by decide, by decide⟩
  intro e he
  rw [List.mem_singleton] at he
  subst he
  exact ⟨rfl, rfl⟩

/-- C7 (amended): with `-o`, when every write completes, the output capture
file holds the bytes of the chunks read from the pty before its end, in the
order received; without `-x` standard output holds the same bytes, so the two
are identical; with `-x` nothing is written to standard output. -/
theorem reader_capture_file (flagx flago : Int) (flagt : Nat) (nameo : String)
    (execPID : Int) (es : List Input) (ho : flago ≠ 0) (hw : writesComplete es) :
    fileoBytes (reader flagx flago flagt nameo execPID es) =
      chunkBytes (beforeEof es) ∧
    (flagx = 0 →
      stdoutBytes (reader flagx flago flagt nameo execPID es) =
        fileoBytes (reader flagx flago flagt nameo execPID es)) ∧
    (flagx ≠ 0 →
      stdoutBytes (reader flagx flago flagt nameo execPID es) = []) := by
  unfold reader
  obtain ⟨h1, h2⟩ := readerRun_complete es (readerStart flagx flago flagt nameo execPID)
    rfl rfl hw
  have e1 : fileoBytes (readerStart flagx flago flagt nameo execPID) = [] := rfl
  have e2 : stdoutBytes (readerStart flagx flago flagt nameo execPID) = [] := rfl
  have e3 : (readerStart flagx flago flagt nameo execPID).flago = flago := rfl
  have e4 : (readerStart flagx flago flagt nameo execPID).flagx = flagx := rfl
  rw [e1, e3] at h1
  rw [e2, e4] at h2
  rw [h1, h2]
  refine ⟨by simp [ho], fun hx => by simp [hx, ho], fun hx => by simp [hx]⟩

/-- C7 (amended) on two chunks, the notification between them, and the end
of the pty output, with `-o out` and without `-x`. -/
theorem reader_capture_file_witness :
    (TRUE ≠ 0) ∧
    fileoBytes (reader FALSE TRUE 2000000 "out" 7
      [Input.chunk [65] 1 1, Input.sigusr1, Input.chunk [66, 67] 2 2, Input.eof]) =
      [65, 66, 67] ∧
    stdoutBytes (reader FALSE TRUE 2000000 "out" 7
      [Input.chunk [65] 1 1, Input.sigusr1, Input.chunk [66, 67] 2 2, Input.eof]) =
      [65, 66, 67] := by
  have h := reader_capture_file FALSE TRUE 2000000 "out" 7
    [Input.chunk [65] 1 1, Input.sigusr1, Input.chunk [66, 67] 2 2, Input.eof]
    (by decide) (by
      intro e he
      simp only [List.mem_cons, List.mem_singleton, List.not_mem_nil, or_false] at he
      rcases he with h | h | h | h <;> subst h <;> simp)
  refine ⟨by decide, ?_, ?_⟩
  · rw [h.1]; decide
  · rw [h.2.1 rfl, h.1]; decide

/-! ## The idle timer -/

/-- What one pass of the loop body does to the timer. Unless `writing` is
FALSE, `flagt` is less than 1000000 and the pass reaches its end, in which
case the timer is set to `flagt`, the timer is as before; and while `writing`
is not FALSE the pass makes no call of `ualarm`. -/
theorem readerBody_alarm (c : List Nat) (rout rfile : Int) (s : Reader) :
    ((readerBody c rout rfile s).alarm = s.alarm ∧
      (s.writing ≠ 0 → ∀ u, REvent.ualarm u ∈ (readerBody c rout rfile s).trace →
        REvent.ualarm u ∈ s.trace)) ∨
    (s.writing = 0 ∧ s.flagt < 1000000 ∧ (readerBody c rout rfile s).alarm = s.flagt) := by
  by_cases hx : s.flagx = 0 <;> by_cases ho : s.flago = 0 <;>
    by_cases h1 : rout = c.length <;> by_cases h2 : rfile = c.length <;>
    by_cases hw : s.writing = 0 <;> by_cases ht : s.flagt < 1000000 <;>
    simp [readerBody, ualarm, hx, ho, h1, h2, hw, ht]

/-- A pass of the loop body that leaves the process running, made when
`writing` is FALSE, ends with the call `ualarm( flagt, 0 )`, which sets the
timer to `flagt` when `flagt` is less than 1000000 and otherwise leaves it as
it was. -/
theorem readerBody_rearms (c : List Nat) (rout rfile : Int) (s : Reader)
    (hw : s.writing = 0) (hr : (readerBody c rout rfile s).status = Status.running) :
    (readerBody c rout rfile s).alarm = (if s.flagt < 1000000 then s.flagt else s.alarm) ∧
    (readerBody c rout rfile s).trace.getLast? = some (REvent.ualarm s.flagt) := by
  by_cases hx : s.flagx = 0 <;> by_cases ho : s.flago = 0 <;>
    by_cases h1 : rout = c.length <;> by_cases h2 : rfile = c.length <;>
    simp [readerBody, ualarm, hx, ho, h1, h2, hw] at hr ⊢

/-- The state of the timer after any sequence of inputs: either the
notification has not been handled, `writing` is TRUE, no alarm is scheduled
and `ualarm` has never been called; or it has been handled, `writing` is
FALSE and the timer holds at most the configured timeout, and nothing at all
when that timeout is 1000000 or more. -/
theorem readerRun_timer (flagx flago : Int) (flagt : Nat) (nameo : String) (execPID : Int)
    (es : List Input) :
    (readerRun (readerStart flagx flago flagt nameo execPID) es).flagt = flagt ∧
    (((readerRun (readerStart flagx flago flagt nameo execPID) es).writing = TRUE ∧
      (readerRun (readerStart flagx flago flagt nameo execPID) es).alarm = 0 ∧
      (∀ u, REvent.ualarm u ∉
        (readerRun (readerStart flagx flago flagt nameo execPID) es).trace) ∧
      ((readerRun (readerStart flagx flago flagt nameo execPID) es).status = Status.running →
        Input.sigusr1 ∉ es)) ∨
     ((readerRun (readerStart flagx flago flagt nameo execPID) es).writing = FALSE ∧
      ((readerRun (readerStart flagx flago flagt nameo execPID) es).alarm ≤ flagt ∧
        (1000000 ≤ flagt →
          (readerRun (readerStart flagx flago flagt nameo execPID) es).alarm = 0)) ∧
      Input.sigusr1 ∈ es)) := by
  induction es using List.reverseRecOn with
  | nil => exact ⟨rfl, Or.inl ⟨rfl, rfl, by simp [readerRun, readerStart], by simp⟩⟩
  | append_singleton es e ih =>
    rw [readerRun_append]
    generalize readerRun (readerStart flagx flago flagt nameo execPID) es = s at ih ⊢
    obtain ⟨hft, hJ⟩ := ih
    refine ⟨by rw [(readerStep_globals s e).2.2, hft], ?_⟩
    by_cases hr : s.status = Status.running
    · have hrn : ¬ s.status ≠ Status.running := by simp [hr]
      cases e with
      | chunk c rout rfile =>
        unfold readerStep
        rw [if_neg hrn]
        dsimp only
        split
        · obtain ⟨-, -, g3, g4, -⟩ := readerBody_globals c rout rfile s
          rcases hJ with ⟨w1, a1, t1, n1⟩ | ⟨w1, a1, m1⟩
          · left
            have hw0 : ¬ s.writing = 0 := by rw [w1]; decide
            rcases readerBody_alarm c rout rfile s with ⟨b1, b2⟩ | ⟨b1, -, -⟩
            · exact ⟨by rw [g4, w1], by rw [b1, a1], fun u hu => t1 u (b2 hw0 u hu),
                fun _ => by simpa using n1 hr⟩
            · exact absurd b1 hw0
          · right
            refine ⟨by rw [g4, w1], ?_, by simp [m1]⟩
            rcases readerBody_alarm c rout rfile s with ⟨b1, -⟩ | ⟨-, b2, b3⟩
            · rw [b1]; exact a1
            · rw [b3, hft]
              rw [hft] at b2
              exact ⟨le_refl _, fun hbig => by omega⟩
        · rcases hJ with ⟨w1, a1, t1, n1⟩ | ⟨w1, a1, m1⟩
          · exact Or.inl ⟨w1, a1, t1, fun h => by simpa using n1 h⟩
          · exact Or.inr ⟨w1, a1, by simp [m1]⟩
      | eof =>
        unfold readerStep
        rw [if_neg hrn]
        dsimp only
        rcases hJ with ⟨w1, a1, t1, n1⟩ | ⟨w1, a1, m1⟩
        · left
          split
          · refine ⟨w1, a1, fun u hu => t1 u ?_, fun _ => by simpa using n1 hr⟩
            simpa [reader_done] using hu
          · exact ⟨w1, a1, t1, fun h => by simpa using n1 h⟩
        · right
          split
          · exact ⟨w1, a1, by simp [m1]⟩
          · exact ⟨w1, a1, by simp [m1]⟩
      | sigusr1 =>
        right
        have hz : s.alarm ≤ flagt ∧ (1000000 ≤ flagt → s.alarm = 0) := by
          rcases hJ with ⟨-, a1, -, -⟩ | ⟨-, a1, -⟩
          · rw [a1]; exact ⟨Nat.zero_le _, fun _ => rfl⟩
          · exact a1
        by_cases hsmall : flagt < 1000000
        · simp [readerStep, hr, writer_done, ualarm, hft, hsmall]
        · simp [readerStep, hr, writer_done, ualarm, hft, hsmall]
          exact hz
      | elapse usecs =>
        unfold readerStep
        rw [if_neg hrn]
        dsimp only
        rcases hJ with ⟨w1, a1, t1, n1⟩ | ⟨w1, a1, m1⟩
        · left
          rw [if_pos a1]
          exact ⟨w1, a1, t1, fun h => by simpa using n1 h⟩
        · right
          obtain ⟨a2, a3⟩ := a1
          split_ifs
          · exact ⟨w1, ⟨a2, a3⟩, by simp [m1]⟩
          · exact ⟨w1, ⟨by show s.alarm - usecs ≤ flagt; omega,
              fun hbig => by show s.alarm - usecs = 0; have := a3 hbig; omega⟩, by simp [m1]⟩
          · exact ⟨w1, ⟨by show 0 ≤ flagt; omega, fun _ => rfl⟩, by simp [m1]⟩
    · have hs : readerStep s e = s := by simp [readerStep, hr]
      rw [hs]
      rcases hJ with ⟨w1, a1, t1, -⟩ | ⟨w1, a1, m1⟩
      · exact Or.inl ⟨w1, a1, t1, fun h => absurd h hr⟩
      · exact Or.inr ⟨w1, a1, by simp [m1]⟩

/-- C10 (the code departs from the claim): the idle timer over every
sequence of chunks read from the pty, the end of the pty output, the
notification SIGUSR1 and time going by, from the start of the drain loop.
(1) The timer is armed only if the notification has been received, and then
`writing` is FALSE. (2) A chunk that arrives before the notification leaves
the timer unarmed, with no call of `ualarm` made so far. (3) The notification
sets `writing` to FALSE and calls `ualarm( flagt, 0 )`, and (4) so does every
chunk handled after it; that call sets the timer to the full `flagt` when
`flagt` is less than 1000000. (5) When `flagt` is 1000000 or more, which
includes the default of two seconds, the call fails each time: the timer is
armed in no state, neither by the notification nor by a later chunk. -/
theorem idle_timer (flagx flago : Int) (flagt : Nat) (nameo : String) (execPID : Int)
    (es : List Input) (s : Reader)
    (hs : s = reader flagx flago flagt nameo execPID es) :
    (s.alarm ≠ 0 → Input.sigusr1 ∈ es ∧ s.writing = FALSE) ∧
    (Input.sigusr1 ∉ es → ∀ (c : List Nat) (rout rfile : Int),
      (readerStep s (Input.chunk c rout rfile)).alarm = 0 ∧
      ∀ u, REvent.ualarm u ∉ (readerStep s (Input.chunk c rout rfile)).trace) ∧
    (s.status = Status.running →
      (readerStep s Input.sigusr1).writing = FALSE ∧
      (readerStep s Input.sigusr1).trace.getLast? = some (REvent.ualarm flagt) ∧
      (flagt < 1000000 → (readerStep s Input.sigusr1).alarm = flagt) ∧
      (0 < flagt → flagt < 1000000 → (readerStep s Input.sigusr1).alarm ≠ 0)) ∧
    (Input.sigusr1 ∈ es → ∀ (c : List Nat) (rout rfile : Int), c ≠ [] → s.looping = true →
      (readerStep s (Input.chunk c rout rfile)).status = Status.running →
      (readerStep s (Input.chunk c rout rfile)).trace.getLast? =
        some (REvent.ualarm flagt) ∧
      (flagt < 1000000 → (readerStep s (Input.chunk c rout rfile)).alarm = flagt)) ∧
    (1000000 ≤ flagt →
      s.alarm = 0 ∧ (readerStep s Input.sigusr1).alarm = 0 ∧
      ∀ (c : List Nat) (rout rfile : Int),
        (readerStep s (Input.chunk c rout rfile)).alarm = 0) := by
  unfold reader at hs
  obtain ⟨hft, hJ⟩ := readerRun_timer flagx flago flagt nameo execPID es
  have hzero : ∀ e : Input, 1000000 ≤ flagt → (readerStep s e).alarm = 0 := by
    intro e hbig
    obtain ⟨-, hJ'⟩ := readerRun_timer flagx flago flagt nameo execPID (es ++ [e])
    rw [readerRun_append, ← hs] at hJ'
    rcases hJ' with ⟨-, a1, -, -⟩ | ⟨-, a1, -⟩
    · exact a1
    · exact a1.2 hbig
  rw [← hs] at hft hJ
  refine ⟨?_, ?_, ?_, ?_, ?_⟩
  · intro ha
    rcases hJ with ⟨-, a1, -, -⟩ | ⟨w1, -, m1⟩
    · exact absurd a1 ha
    · exact ⟨m1, w1⟩
  · intro hn c rout rfile
    have hn' : Input.sigusr1 ∉ es ++ [Input.chunk c rout rfile] := by simp [hn]
    obtain ⟨-, hJ'⟩ := readerRun_timer flagx flago flagt nameo execPID
      (es ++ [Input.chunk c rout rfile])
    rw [readerRun_append, ← hs] at hJ'
    rcases hJ' with ⟨-, a1, t1, -⟩ | ⟨-, -, m1⟩
    · exact ⟨a1, t1⟩
    · exact absurd m1 hn'
  · intro hr
    have h3 : flagt < 1000000 → (readerStep s Input.sigusr1).alarm = flagt := by
      intro hsmall
      simp [readerStep, hr, writer_done, ualarm, hft, hsmall]
    refine ⟨?_, ?_, h3, fun hpos hsmall => by rw [h3 hsmall]; omega⟩
    · simp [readerStep, hr, writer_done, ualarm]
    · simp [readerStep, hr, writer_done, ualarm, hft]
  · intro hm c rout rfile hc hl hr'
    have hr : s.status = Status.running := by
      by_contra hnr
      have hid : readerStep s (Input.chunk c rout rfile) = s := by simp [readerStep, hnr]
      rw [hid] at hr'
      exact hnr hr'
    have hw : s.writing = 0 := by
      rcases hJ with ⟨-, -, -, n1⟩ | ⟨w1, -, -⟩
      · exact absurd hm (n1 hr)
      · exact w1
    have hstep : readerStep s (Input.chunk c rout rfile) = readerBody c rout rfile s := by
      simp [readerStep, hr, hl, hc]
    rw [hstep] at hr' ⊢
    obtain ⟨r1, r2⟩ := readerBody_rearms c rout rfile s hw hr'
    rw [hft] at r1 r2
    exact ⟨r2, fun hsmall => by rw [r1, if_pos hsmall]⟩
  · intro hbig
    refine ⟨?_, hzero Input.sigusr1 hbig, fun c rout rfile => hzero _ hbig⟩
    rcases hJ with ⟨-, a1, -, -⟩ | ⟨-, a1, -⟩
    · exact a1
    · exact a1.2 hbig

/-- C10 on a run with the default `-t 2`, that is `flagt` = 2000000: after a
chunk and the notification the timer is not armed, and a chunk handled after
the notification calls `ualarm( 2000000, 0 )` and leaves it unarmed. -/
theorem idle_timer_witness :
    (1000000 ≤ 2000000) ∧
    (readerStep (reader FALSE FALSE 2000000 "" 7 [Input.chunk [65] 1 1])
      Input.sigusr1).writing = FALSE ∧
    (readerStep (reader FALSE FALSE 2000000 "" 7 [Input.chunk [65] 1 1])
      Input.sigusr1).trace.getLast? = some (REvent.ualarm 2000000) ∧
    (readerStep (reader FALSE FALSE 2000000 "" 7 [Input.chunk [65] 1 1])
      Input.sigusr1).alarm = 0 ∧
    (readerStep (reader FALSE FALSE 2000000 "" 7 [Input.chunk [65] 1 1, Input.sigusr1])
      (Input.chunk [66] 1 1)).trace.getLast? = some (REvent.ualarm 2000000) ∧
    (readerStep (reader FALSE FALSE 2000000 "" 7 [Input.chunk [65] 1 1, Input.sigusr1])
      (Input.chunk [66] 1 1)).alarm = 0 :=
  ⟨by decide, by decide, by decide,
    ((idle_timer FALSE FALSE 2000000 "" 7 [Input.chunk [65] 1 1] _ rfl).2.2.2.2
      (by decide)).2.1,
    by decide,
    ((idle_timer FALSE FALSE 2000000 "" 7 [Input.chunk [65] 1 1, Input.sigusr1] _
      rfl).2.2.2.2 (by decide)).2.2 [66] 1 1⟩

/-! ## Cleanup -/

@[simp] theorem closesBound_sysKill (pid : Int) (sig : Signal) (s : Proc) :
    closesBound (sysKill pid sig s) = closesBound s := by
  simp [closesBound, sysKill, fcloseFileiCount, fcloseFileoCount]

@[simp] theorem closesBound_sysSignal (sig : Signal) (d : Disposition) (s : Proc) :
    closesBound (sysSignal sig d s) = closesBound s := by
  unfold sysSignal
  cases sig <;> simp [closesBound, fcloseFileiCount, fcloseFileoCount]

@[simp] theorem closesBound_sysExit (code : Int) (s : Proc) :
    closesBound (sysExit code s) = closesBound s := rfl

@[simp] theorem closesBound_fprintfStderr (text : String) (s : Proc) :
    closesBound (fprintfStderr text s) = closesBound s := by
  simp [closesBound, fprintfStderr, fcloseFileiCount, fcloseFileoCount]

@[simp] theorem closesBound_undefinedRead (s : Proc) :
    closesBound (undefinedRead s) = closesBound s := rfl

@[simp] theorem closesBound_done (s : Proc) : closesBound (done s) = closesBound s := by
  by_cases hi : s.flagi = 0 <;> by_cases ho : s.flago = 0 <;>
    simp [closesBound, done, fcloseFileiCount, fcloseFileoCount, hi, ho, FALSE]

@[simp] theorem closesBound_clean (s : Proc) : closesBound (clean s) = closesBound s := by
  unfold clean
  dsimp only
  split_ifs <;> simp

theorem closesBound_sigchld (t : Nat) (pid : Int) (status : Nat) (s : Proc) :
    closesBound (sigchld t pid status s) = closesBound s := by
  unfold sigchld
  dsimp only
  split_ifs <;> (try split) <;> simp

/-- No finalization path raises the bound on the calls of `fclose`. -/
theorem closesBound_run (f : Finalizer) (s : Proc) : closesBound (f.run s) = closesBound s := by
  cases f with
  | done => simp [Finalizer.run]
  | clean => simp [Finalizer.run]
  | clean_int => simp [Finalizer.run, clean_int]
  | clean_quit => simp [Finalizer.run, clean_quit]
  | clean_term => simp [Finalizer.run, clean_term]
  | sigchld t pid status => simp [Finalizer.run, closesBound_sigchld]

theorem closesBound_runFinalizers (fs : List Finalizer) :
    ∀ s : Proc, closesBound (runFinalizers s fs) = closesBound s := by
  induction fs with
  | nil => intro s; rfl
  | cons f fs ih =>
    intro s
    have hcons : runFinalizers s (f :: fs) =
        runFinalizers (if s.status = Status.running then f.run s else s) fs := by
      simp [runFinalizers]
    rw [hcons, ih]
    split
    · exact closesBound_run f s
    · rfl

@[simp] theorem sysKill_flagi (pid : Int) (sig : Signal) (s : Proc) :
    (sysKill pid sig s).flagi = s.flagi := rfl

@[simp] theorem sysKill_flago (pid : Int) (sig : Signal) (s : Proc) :
    (sysKill pid sig s).flago = s.flago := rfl

@[simp] theorem sysSignal_flagi (sig : Signal) (d : Disposition) (s : Proc) :
    (sysSignal sig d s).flagi = s.flagi := by
  unfold sysSignal; cases sig <;> rfl

@[simp] theorem sysSignal_flago (sig : Signal) (d : Disposition) (s : Proc) :
    (sysSignal sig d s).flago = s.flago := by
  unfold sysSignal; cases sig <;> rfl

@[simp] theorem sysExit_flagi (code : Int) (s : Proc) : (sysExit code s).flagi = s.flagi := rfl

@[simp] theorem sysExit_flago (code : Int) (s : Proc) : (sysExit code s).flago = s.flago := rfl

@[simp] theorem fprintfStderr_flagi (text : String) (s : Proc) :
    (fprintfStderr text s).flagi = s.flagi := rfl

@[simp] theorem fprintfStderr_flago (text : String) (s : Proc) :
    (fprintfStderr text s).flago = s.flago := rfl

@[simp] theorem undefinedRead_flagi (s : Proc) : (undefinedRead s).flagi = s.flagi := rfl

@[simp] theorem undefinedRead_flago (s : Proc) : (undefinedRead s).flago = s.flago := rfl

@[simp] theorem done_flagi (s : Proc) : (done s).flagi = 0 := by
  by_cases h1 : s.flagi = 0 <;> by_cases h2 : s.flago = 0 <;> simp [done, h1, h2, FALSE]

@[simp] theorem done_flago (s : Proc) : (done s).flago = 0 := by
  by_cases h1 : s.flagi = 0 <;> by_cases h2 : s.flago = 0 <;> simp [done, h1, h2, FALSE]

theorem sigchld_flags (t : Nat) (pid : Int) (status : Nat) (s : Proc) :
    ((sigchld t pid status s).flagi = 0 ∨ (sigchld t pid status s).flagi = s.flagi) ∧
    ((sigchld t pid status s).flago = 0 ∨ (sigchld t pid status s).flago = s.flago) := by
  unfold sigchld
  dsimp only
  split_ifs <;> (try split) <;> simp

/-- No finalization path sets a capture flag that was FALSE. -/
theorem flags_run (f : Finalizer) (s : Proc) :
    ((f.run s).flagi = 0 ∨ (f.run s).flagi = s.flagi) ∧
    ((f.run s).flago = 0 ∨ (f.run s).flago = s.flago) := by
  cases f with
  | done => simp [Finalizer.run]
  | clean => simp [Finalizer.run, clean]
  | clean_int => simp [Finalizer.run, clean_int, clean]
  | clean_quit => simp [Finalizer.run, clean_quit, clean]
  | clean_term => simp [Finalizer.run, clean_term, clean]
  | sigchld t pid status => exact sigchld_flags t pid status s

theorem flags_runFinalizers (fs : List Finalizer) :
    ∀ s : Proc, (s.flagi = 0 → (runFinalizers s fs).flagi = 0) ∧
      (s.flago = 0 → (runFinalizers s fs).flago = 0) := by
  induction fs with
  | nil => intro s; exact ⟨fun h => h, fun h => h⟩
  | cons f fs ih =>
    intro s
    have hcons : runFinalizers s (f :: fs) =
        runFinalizers (if s.status = Status.running then f.run s else s) fs := by
      simp [runFinalizers]
    rw [hcons]
    obtain ⟨r1, r2⟩ := flags_run f s
    constructor
    · intro h
      apply (ih _).1
      split
      · rcases r1 with r | r
        · exact r
        · rw [r, h]
      · exact h
    · intro h
      apply (ih _).2
      split
      · rcases r2 with r | r
        · exact r
        · rw [r, h]
      · exact h

/-- C8: `done` is idempotent; after it `flagi` and `flago` are FALSE; and
over any sequence of finalization invocations (`done`, `clean`, `clean_int`,
`clean_quit`, `clean_term`, `sigchld`), started in any state, `fclose` is
called at most once on each capture file, and not at all on a file whose flag
was already FALSE. -/
theorem done_idempotent (s : Proc) (fs : List Finalizer) :
    done (done s) = done s ∧
    (done s).flagi = FALSE ∧ (done s).flago = FALSE ∧
    fcloseFileiCount (runFinalizers s fs) ≤ fcloseFileiCount s + 1 ∧
    fcloseFileoCount (runFinalizers s fs) ≤ fcloseFileoCount s + 1 ∧
    (s.flagi = FALSE → fcloseFileiCount (runFinalizers s fs) = fcloseFileiCount s) ∧
    (s.flago = FALSE → fcloseFileoCount (runFinalizers s fs) = fcloseFileoCount s) := by
  have hb := closesBound_runFinalizers fs s
  simp only [closesBound, Prod.mk.injEq] at hb
  obtain ⟨hi, ho⟩ := hb
  refine ⟨?_, done_flagi s, done_flago s, ?_, ?_, ?_, ?_⟩
  · by_cases h1 : s.flagi = 0 <;> by_cases h2 : s.flago = 0 <;> simp [done, h1, h2, FALSE]
  · split_ifs at hi <;> omega
  · split_ifs at ho <;> omega
  · intro h0
    have h1 := (flags_runFinalizers fs s).1 h0
    have h0' : s.flagi = 0 := h0
    simpa [h0', h1] using hi
  · intro h0
    have h1 := (flags_runFinalizers fs s).2 h0
    have h0' : s.flago = 0 := h0
    simpa [h0', h1] using ho

/-- C8 on a controller with both capture files open that runs `clean_int`,
then `done`, then `clean_term`: each file is closed once. -/
theorem done_idempotent_witness :
    done (done (controller TRUE TRUE 5 6 7 "cmd")) = done (controller TRUE TRUE 5 6 7 "cmd") ∧
    fcloseFileiCount (runFinalizers (controller TRUE TRUE 5 6 7 "cmd")
      [Finalizer.clean_int, Finalizer.done, Finalizer.clean_term]) ≤ 0 + 1 ∧
    fcloseFileoCount (runFinalizers (controller TRUE TRUE 5 6 7 "cmd")
      [Finalizer.clean_int, Finalizer.done, Finalizer.clean_term]) ≤ 0 + 1 :=
  ⟨(done_idempotent (controller TRUE TRUE 5 6 7 "cmd") []).1,
    (done_idempotent (controller TRUE TRUE 5 6 7 "cmd")
      [Finalizer.clean_int, Finalizer.done, Finalizer.clean_term]).2.2.2.1,
    (done_idempotent (controller TRUE TRUE 5 6 7 "cmd")
      [Finalizer.clean_int, Finalizer.done, Finalizer.clean_term]).2.2.2.2.1⟩

/-! ## The fixed exit codes -/

theorem setupPtyBody_status (d : Devices) (c : Char) (i : Nat) (s : PtyState) :
    (setupPtyBody d c i s).status = s.status ∨
      (setupPtyBody d c i s).status = Status.exited 2 := by
  unfold setupPtyBody
  dsimp only
  split_ifs <;> simp

theorem setupPtyInner_status (d : Devices) (c : Char) (is : List Nat) :
    ∀ s : PtyState, (setupPtyInner d c is s).status = s.status ∨
      (setupPtyInner d c is s).status = Status.exited 2 := by
  induction is with
  | nil => intro s; exact Or.inl rfl
  | cons i rest ih =>
    intro s
    unfold setupPtyInner
    split
    · exact Or.inl rfl
    · rcases ih (setupPtyBody d c i s) with h | h
      · rcases setupPtyBody_status d c i s with h2 | h2
        · exact Or.inl (h.trans h2)
        · exact Or.inr (h.trans h2)
      · exact Or.inr h

theorem setupPtyOuter_status (d : Devices) (cs : List Char) :
    ∀ s : PtyState, (setupPtyOuter d cs s).status = s.status ∨
      (setupPtyOuter d cs s).status = Status.exited 2 := by
  induction cs with
  | nil => intro s; exact Or.inl rfl
  | cons c rest ih =>
    intro s
    unfold setupPtyOuter
    split
    · exact Or.inl rfl
    · rcases ih (setupPtyInner d c (List.range 10) s) with h | h
      · rcases setupPtyInner_status d c (List.range 10) s with h2 | h2
        · exact Or.inl (h.trans h2)
        · exact Or.inr (h.trans h2)
      · exact Or.inr h

/-- Whenever `setup_pty` ends the process, the exit status is 2. -/
theorem setup_pty_status (d : Devices) (pty0 : Int) (name0 : String) :
    (setup_pty d pty0 name0).status = Status.running ∨
      (setup_pty d pty0 name0).status = Status.exited 2 := by
  unfold setup_pty
  dsimp only
  have h := setupPtyOuter_status d ['p', 'q', 'r']
    { pty := pty0, ttyNameUsed := name0, foundOne := false, trace := [],
      status := Status.running }
  generalize setupPtyOuter d ['p', 'q', 'r']
    { pty := pty0, ttyNameUsed := name0, foundOne := false, trace := [],
      status := Status.running } = r at h ⊢
  by_cases h1 : r.status ≠ Status.running
  · rw [if_pos h1]
    rcases h with h | h
    · exact absurd h h1
    · exact Or.inr h
  · rw [if_neg h1]
    by_cases h2 : ¬ r.foundOne
    · rw [if_pos h2]
      exact Or.inr rfl
    · rw [if_neg h2]
      exact Or.inl (by simpa using h1)

/-- Whatever `open` of the slave returned, the child of `execute` in which
`execvp` comes back calls `exit( 1 )`. -/
theorem executeChild_failed (flags : Int) (ttyNameUsed cmd0 : String)
    (fstdin fstdout fstderr tty : Int) :
    (executeChild flags ttyNameUsed cmd0 fstdin fstdout fstderr tty true).2 =
      ChildOutcome.exited 1 := by
  unfold executeChild
  by_cases h : tty < 0 <;> simp [h]

/-- C9 (as stated, false): a launch failure and an argument error end with
the same exit status. The child in which `execvp` fails calls `exit( 1 )`,
the handler `sigchld` hands that 1 on as the exit status of the controller,
and `usage` calls `exit( 1 )` too. -/
theorem launch_failure_status_eq_usage :
    (executeChild 0 "/dev/ttyp0" "nosuchcmd" 3 4 5 6 true).2.word = some (exitedWord 1) ∧
    (sigchld 20 7 (exitedWord 1) (controller 0 0 5 (-1) 7 "nosuchcmd")).status =
      (usage (controller 0 0 (-1) (-1) (-1) "")).status := by
  decide

/-- C9 (amended): the exit status on pty exhaustion, 2, differs from the
other two, which are both 1. Whenever `setup_pty` ends the process it does so
with status 2; the child in which `execvp` fails exits with 1 and `sigchld`
makes that the exit status of the controller; `usage` exits with 1. -/
theorem fixed_exit_codes (d : Devices) (pty0 : Int) (name0 : String)
    (flags : Int) (ttyNameUsed cmd0 : String) (fstdin fstdout fstderr tty : Int)
    (t : Nat) (s u : Proc)
    (hd : (setup_pty d pty0 name0).status ≠ Status.running)
    (hexec : s.execPID ≠ 0) (ht : t ≠ 1) :
    (setup_pty d pty0 name0).status = Status.exited 2 ∧
    (executeChild flags ttyNameUsed cmd0 fstdin fstdout fstderr tty true).2.word =
      some (exitedWord 1) ∧
    (sigchld t s.execPID (exitedWord 1) s).status = Status.exited 1 ∧
    (usage u).status = Status.exited 1 ∧
    (setup_pty d pty0 name0).status ≠ (sigchld t s.execPID (exitedWord 1) s).status ∧
    (setup_pty d pty0 name0).status ≠ (usage u).status := by
  have h2 : (setup_pty d pty0 name0).status = Status.exited 2 := by
    rcases setup_pty_status d pty0 name0 with h | h
    · exact absurd h hd
    · exact h
  have h1 : (sigchld t s.execPID (exitedWord 1) s).status = Status.exited 1 :=
    (sigchld_exited t s.execPID 1 s hexec (by decide) (fun h => ht h.symm)).1
  have hu : (usage u).status = Status.exited 1 := rfl
  refine ⟨h2, ?_, h1, hu, ?_, ?_⟩
  · rw [executeChild_failed]; decide
  · rw [h2, h1]; decide
  · rw [h2, hu]; decide

/-- C9 (amended) when no master can be opened, the command is "nosuchcmd",
and `main` is given no command. -/
theorem fixed_exit_codes_witness :
    (setup_pty ⟨fun _ => 0, fun _ => -1, fun _ => 0⟩ (-1) "").status = Status.exited 2 ∧
    (sigchld 20 7 (exitedWord 1) (controller 0 0 5 (-1) 7 "nosuchcmd")).status =
      Status.exited 1 ∧
    (usage (controller 0 0 (-1) (-1) (-1) "")).status = Status.exited 1 :=
  have h := fixed_exit_codes ⟨fun _ => 0, fun _ => -1, fun _ => 0⟩ (-1) ""
    0 "/dev/ttyp0" "nosuchcmd" 3 4 5 6 20
    (controller 0 0 5 (-1) 7 "nosuchcmd") (controller 0 0 (-1) (-1) (-1) "")
    (by decide) (by decide) (by decide)
  ⟨h.1, h.2.2.1, h.2.2.2.1⟩

/-! ## setup_pty and the first qualifying candidate -/

theorem setupPtyInner_stop (d : Devices) (c : Char) (is : List Nat) (s : PtyState)
    (h : s.status ≠ Status.running ∨ s.foundOne = true) : setupPtyInner d c is s = s := by
  cases is with
  | nil => rfl
  | cons i rest => simp [setupPtyInner, h]

theorem setupPtyOuter_stop (d : Devices) (cs : List Char) (s : PtyState)
    (h : s.status ≠ Status.running ∨ s.foundOne = true) : setupPtyOuter d cs s = s := by
  cases cs with
  | nil => rfl
  | cons c rest => simp [setupPtyOuter, h]

theorem selectFirst_append (d : Devices) (opened : Int → Bool) (a b : List (Char × Nat)) :
    selectFirst d opened (a ++ b) =
      match selectFirst d opened a with
      | Selection.exhausted => selectFirst d opened b
      | r => r := by
  induction a with
  | nil => simp [selectFirst]
  | cons x rest ih =>
    obtain ⟨c, i⟩ := x
    simp only [List.cons_append, selectFirst]
    split_ifs
    · rfl
    · rfl
    · exact ih

/-- What the scan of one candidate leaves, by the outcome of the three
calls. -/
theorem setupPtyBody_cases (d : Devices) (c : Char) (i : Nat) (s : PtyState)
    (hr : s.status = Status.running) (hf : s.foundOne = false) :
    (d.stat (ptyName c i) < 0 → (setupPtyBody d c i s).status = Status.exited 2) ∧
    (¬ d.stat (ptyName c i) < 0 →
      (openPositive (d.openRdwr (ptyName c i)) = true ∧
          d.access (setSlaveLetter (ptyName c i)) = 0) →
      (setupPtyBody d c i s).status = Status.running ∧
      (setupPtyBody d c i s).foundOne = true ∧
      (setupPtyBody d c i s).pty = d.openRdwr (ptyName c i) ∧
      (setupPtyBody d c i s).ttyNameUsed = setSlaveLetter (ptyName c i)) ∧
    (¬ d.stat (ptyName c i) < 0 →
      ¬ (openPositive (d.openRdwr (ptyName c i)) = true ∧
          d.access (setSlaveLetter (ptyName c i)) = 0) →
      (setupPtyBody d c i s).status = Status.running ∧
      (setupPtyBody d c i s).foundOne = false) := by
  by_cases h1 : d.stat (ptyName c i) < 0 <;>
    by_cases h2 : d.openRdwr (ptyName c i) > 0 <;>
    by_cases h3 : d.access (setSlaveLetter (ptyName c i)) = 0 <;>
    simp [setupPtyBody, openPositive, h1, h2, h3, hr, hf]

theorem setupPtyInner_leaves (d : Devices) (c : Char) (is : List Nat) :
    ∀ s : PtyState, s.status = Status.running → s.foundOne = false →
      (selectFirst d openPositive (is.map fun i => (c, i))).leaves d
        (setupPtyInner d c is s) := by
  induction is with
  | nil => intro s hr hf; exact ⟨hr, hf⟩
  | cons i rest ih =>
    intro s hr hf
    obtain ⟨b1, b2, b3⟩ := setupPtyBody_cases d c i s hr hf
    have hgo : setupPtyInner d c (i :: rest) s =
        setupPtyInner d c rest (setupPtyBody d c i s) := by
      simp [setupPtyInner, hr, hf]
    rw [hgo]
    simp only [List.map_cons, selectFirst]
    by_cases h1 : d.stat (ptyName c i) < 0
    · rw [if_pos h1, setupPtyInner_stop d c rest _ (Or.inl (by rw [b1 h1]; decide))]
      exact b1 h1
    · rw [if_neg h1]
      by_cases h2 : openPositive (d.openRdwr (ptyName c i)) = true ∧
          d.access (setSlaveLetter (ptyName c i)) = 0
      · rw [if_pos h2, setupPtyInner_stop d c rest _ (Or.inr (b2 h1 h2).2.1)]
        exact b2 h1 h2
      · rw [if_neg h2]
        exact ih _ (b3 h1 h2).1 (b3 h1 h2).2

theorem setupPtyOuter_leaves (d : Devices) (cs : List Char) :
    ∀ s : PtyState, s.status = Status.running → s.foundOne = false →
      (selectFirst d openPositive
        (cs.map fun c => (List.range 10).map fun i => (c, i)).flatten).leaves d
        (setupPtyOuter d cs s) := by
  induction cs with
  | nil => intro s hr hf; exact ⟨hr, hf⟩
  | cons c rest ih =>
    intro s hr hf
    have hgo : setupPtyOuter d (c :: rest) s =
        setupPtyOuter d rest (setupPtyInner d c (List.range 10) s) := by
      simp [setupPtyOuter, hr, hf]
    rw [hgo]
    simp only [List.map_cons, List.flatten_cons, selectFirst_append]
    have hin := setupPtyInner_leaves d c (List.range 10) s hr hf
    generalize setupPtyInner d c (List.range 10) s = s1 at hin ⊢
    generalize selectFirst d openPositive ((List.range 10).map fun i => (c, i)) = sel at hin ⊢
    cases sel with
    | selected c1 i1 =>
      rw [setupPtyOuter_stop d rest s1 (Or.inr hin.2.1)]
      exact hin
    | statFailed =>
      have hs : s1.status = Status.exited 2 := hin
      rw [setupPtyOuter_stop d rest s1 (Or.inl (by rw [hs]; decide))]
      exact hin
    | exhausted => exact ih s1 hin.1 hin.2

/-- The function `setup_pty` makes the selection of the scan in which an
`open` counts as successful when its result is greater than 0: it returns
with `pty` and `ttyNameUsed` set for the selected candidate, and it exits with
status 2 when `stat` failed or no candidate qualified. -/
theorem setup_pty_selection (d : Devices) (pty0 : Int) (name0 : String) :
    match selectFirst d openPositive ptyCandidates with
    | Selection.selected c i =>
      (setup_pty d pty0 name0).status = Status.running ∧
      (setup_pty d pty0 name0).pty = d.openRdwr (ptyName c i) ∧
      (setup_pty d pty0 name0).ttyNameUsed = setSlaveLetter (ptyName c i)
    | Selection.statFailed => (setup_pty d pty0 name0).status = Status.exited 2
    | Selection.exhausted => (setup_pty d pty0 name0).status = Status.exited 2 := by
  have h := setupPtyOuter_leaves d ['p', 'q', 'r']
    { pty := pty0, ttyNameUsed := name0, foundOne := false, trace := [],
      status := Status.running } rfl rfl
  unfold setup_pty
  dsimp only
  generalize setupPtyOuter d ['p', 'q', 'r']
    { pty := pty0, ttyNameUsed := name0, foundOne := false, trace := [],
      status := Status.running } = r at h ⊢
  have hc : ptyCandidates =
      (['p', 'q', 'r'].map fun c => (List.range 10).map fun i => (c, i)).flatten := rfl
  rw [hc]
  generalize selectFirst d openPositive
    (['p', 'q', 'r'].map fun c => (List.range 10).map fun i => (c, i)).flatten = sel at h ⊢
  cases sel with
  | selected c i =>
    obtain ⟨h1, h2, h3, h4⟩ := h
    simp [h1, h2, h3, h4]
  | statFailed =>
    have hs : r.status = Status.exited 2 := h
    simp [hs]
  | exhausted =>
    obtain ⟨h1, h2⟩ := h
    simp [h1, h2]

/-- When no `open` returns the descriptor 0, the two readings of a
successful open select the same candidate. -/
theorem selectFirst_openSucceeded (d : Devices) (l : List (Char × Nat))
    (h0 : ∀ c i, d.openRdwr (ptyName c i) ≠ 0) :
    selectFirst d openSucceeded l = selectFirst d openPositive l := by
  induction l with
  | nil => rfl
  | cons x rest ih =>
    obtain ⟨c, i⟩ := x
    have hb : openSucceeded (d.openRdwr (ptyName c i)) =
        openPositive (d.openRdwr (ptyName c i)) := by
      have := h0 c i
      simp only [openSucceeded, openPositive, decide_eq_decide]
      omega
    simp only [selectFirst, hb, ih]

/-- C11 (the code departs from the claim): in a device namespace where
`open` of the first master `/dev/ptyp0` succeeds with the descriptor 0 and
its slave is accessible, the first candidate whose master opens successfully
and whose slave is accessible is p0, but `setup_pty`, which tests
`open( ... ) > 0`, passes over it without closing the descriptor and selects
p1: it returns with `pty` 5 and `ttyNameUsed` "/dev/ttyp1". -/
theorem setup_pty_skips_descriptor_zero :
    selectFirst closedStdinDevices openSucceeded ptyCandidates = Selection.selected 'p' 0 ∧
    (setup_pty closedStdinDevices (-1) "").status = Status.running ∧
    (setup_pty closedStdinDevices (-1) "").pty = 5 ∧
    (setup_pty closedStdinDevices (-1) "").ttyNameUsed = "/dev/ttyp1" ∧
    (setup_pty closedStdinDevices (-1) "").trace =
      [PEvent.opened "/dev/ptyp0" 0, PEvent.opened "/dev/ptyp1" 5] := by
  decide

/-! ## The interrupt, quit and terminate handlers -/

/-- The calls of `clean()`, in order. -/
theorem clean_trace (s : Proc) :
    (clean s).trace = s.trace ++
      ([Event.signal Signal.SIGCHLD Disposition.SIG_IGN] ++
       (if s.execPID ≠ -1 then [Event.kill s.execPID Signal.SIGKILL] else []) ++
       (if s.writerPID ≠ -1 then [Event.kill s.writerPID Signal.SIGKILL] else []) ++
       (if s.flagi ≠ 0 then [Event.fclose_filei] else []) ++
       (if s.flago ≠ 0 then [Event.fclose_fileo] else [])) ∧
    (clean s).flagi = FALSE ∧ (clean s).flago = FALSE ∧
    (clean s).readerPID = s.readerPID ∧
    (clean s).onSIGINT = s.onSIGINT ∧ (clean s).onSIGQUIT = s.onSIGQUIT ∧
    (clean s).onSIGTERM = s.onSIGTERM := by
  by_cases h1 : s.execPID = -1 <;> by_cases h2 : s.writerPID = -1 <;>
    by_cases h3 : s.flagi = 0 <;> by_cases h4 : s.flago = 0 <;>
    simp [clean, done, sysSignal, sysKill, h1, h2, h3, h4, FALSE]

theorem clean_calls (s : Proc) (pre post : List Event)
    (hpre : pre.count Event.fclose_filei = 0 ∧ pre.count Event.fclose_fileo = 0)
    (hpost : post.count Event.fclose_filei = 0 ∧ post.count Event.fclose_fileo = 0) :
    (s.execPID ≠ -1 → Event.kill s.execPID Signal.SIGKILL ∈
      pre ++ ([Event.signal Signal.SIGCHLD Disposition.SIG_IGN] ++
       (if s.execPID ≠ -1 then [Event.kill s.execPID Signal.SIGKILL] else []) ++
       (if s.writerPID ≠ -1 then [Event.kill s.writerPID Signal.SIGKILL] else []) ++
       (if s.flagi ≠ 0 then [Event.fclose_filei] else []) ++
       (if s.flago ≠ 0 then [Event.fclose_fileo] else [])) ++ post) ∧
    (s.writerPID ≠ -1 → Event.kill s.writerPID Signal.SIGKILL ∈
      pre ++ ([Event.signal Signal.SIGCHLD Disposition.SIG_IGN] ++
       (if s.execPID ≠ -1 then [Event.kill s.execPID Signal.SIGKILL] else []) ++
       (if s.writerPID ≠ -1 then [Event.kill s.writerPID Signal.SIGKILL] else []) ++
       (if s.flagi ≠ 0 then [Event.fclose_filei] else []) ++
       (if s.flago ≠ 0 then [Event.fclose_fileo] else [])) ++ post) ∧
    (pre ++ ([Event.signal Signal.SIGCHLD Disposition.SIG_IGN] ++
       (if s.execPID ≠ -1 then [Event.kill s.execPID Signal.SIGKILL] else []) ++
       (if s.writerPID ≠ -1 then [Event.kill s.writerPID Signal.SIGKILL] else []) ++
       (if s.flagi ≠ 0 then [Event.fclose_filei] else []) ++
       (if s.flago ≠ 0 then [Event.fclose_fileo] else [])) ++ post).count Event.fclose_filei =
      (if s.flagi ≠ 0 then 1 else 0) ∧
    (pre ++ ([Event.signal Signal.SIGCHLD Disposition.SIG_IGN] ++
       (if s.execPID ≠ -1 then [Event.kill s.execPID Signal.SIGKILL] else []) ++
       (if s.writerPID ≠ -1 then [Event.kill s.writerPID Signal.SIGKILL] else []) ++
       (if s.flagi ≠ 0 then [Event.fclose_filei] else []) ++
       (if s.flago ≠ 0 then [Event.fclose_fileo] else [])) ++ post).count Event.fclose_fileo =
      (if s.flago ≠ 0 then 1 else 0) := by
  obtain ⟨p1, p2⟩ := hpre
  obtain ⟨q1, q2⟩ := hpost
  by_cases h1 : s.execPID = -1 <;> by_cases h2 : s.writerPID = -1 <;>
    by_cases h3 : s.flagi = 0 <;> by_cases h4 : s.flago = 0 <;>
    simp [h1, h2, h3, h4, p1, p2, q1, q2, List.count_cons]

/-- C12: each of `clean_int`, `clean_quit` and `clean_term`, run from any
state, finalizes (SIGKILL is sent to the target and to the forwarder whenever
their pids are set, each capture file whose flag is set is closed once, and
both flags are FALSE afterwards), leaves the disposition of its own signal at
SIG_DFL, and makes as its last call the `kill` that sends that same signal to
`readerPID`. -/
theorem clean_handlers_finalize (s : Proc) :
    (Finalized Signal.SIGINT s (clean_int s) ∧
      (clean_int s).onSIGINT = Disposition.SIG_DFL) ∧
    (Finalized Signal.SIGQUIT s (clean_quit s) ∧
      (clean_quit s).onSIGQUIT = Disposition.SIG_DFL) ∧
    (Finalized Signal.SIGTERM s (clean_term s) ∧
      (clean_term s).onSIGTERM = Disposition.SIG_DFL) := by
  refine ⟨⟨?_, ?_⟩, ⟨?_, ?_⟩, ⟨?_, ?_⟩⟩
  · obtain ⟨t, f1, f2, r, -, -, -⟩ :=
      clean_trace (sysSignal Signal.SIGINT Disposition.SIG_DFL s)
    obtain ⟨k1, k2, c1, c2⟩ := clean_calls s
      [Event.signal Signal.SIGINT Disposition.SIG_DFL] [Event.kill s.readerPID Signal.SIGINT]
      (by simp) (by simp)
    have hr : (clean (sysSignal Signal.SIGINT Disposition.SIG_DFL s)).readerPID =
        s.readerPID := by rw [r]; simp
    refine ⟨_, ?_, k1, k2, c1, c2, ?_, ?_, ?_⟩
    · simp only [clean_int, sysKill, t, hr]
      simp [sysSignal]
    · simpa [clean_int, sysKill] using f1
    · simpa [clean_int, sysKill] using f2
    · rw [List.getLast?_append]; rfl
  · obtain ⟨-, -, -, -, i, -, -⟩ := clean_trace (sysSignal Signal.SIGINT Disposition.SIG_DFL s)
    simp only [clean_int, sysKill, i]
    simp [sysSignal]
  · obtain ⟨t, f1, f2, r, -, -, -⟩ := clean_trace s
    obtain ⟨k1, k2, c1, c2⟩ := clean_calls s []
      [Event.signal Signal.SIGQUIT Disposition.SIG_DFL, Event.kill s.readerPID Signal.SIGQUIT]
      (by simp) (by simp)
    refine ⟨_, ?_, k1, k2, c1, c2, ?_, ?_, ?_⟩
    · simp [clean_quit, sysKill, sysSignal, t, r]
    · simpa [clean_quit, sysKill, sysSignal] using f1
    · simpa [clean_quit, sysKill, sysSignal] using f2
    · rw [List.getLast?_append]; rfl
  · simp [clean_quit, sysKill, sysSignal]
  · obtain ⟨t, f1, f2, r, -, -, -⟩ := clean_trace s
    obtain ⟨k1, k2, c1, c2⟩ := clean_calls s []
      [Event.signal Signal.SIGTERM Disposition.SIG_DFL, Event.kill s.readerPID Signal.SIGTERM]
      (by simp) (by simp)
    refine ⟨_, ?_, k1, k2, c1, c2, ?_, ?_, ?_⟩
    · simp [clean_term, sysKill, sysSignal, t, r]
    · simpa [clean_term, sysKill, sysSignal] using f1
    · simpa [clean_term, sysKill, sysSignal] using f2
    · rw [List.getLast?_append]; rfl
  · simp [clean_term, sysKill, sysSignal]

/-! ## The index into mesg -/

/-- C15 (the code departs from the claim): `mesg` has 33 entries, and when
`wait3` hands the handler a status whose `w_termsig` is 33 or more, with a
`w_stopsig` other than SIGTSTP, the handler reads `mesg[w_termsig].pname`
with an index that is not an index of the table. -/
theorem sigchld_mesg_index (t : Nat) (pid : Int) (w : Nat) (s : Proc)
    (hpid : pid ≠ 0) (hstop : w_stopsig w ≠ t) (h33 : 33 ≤ w_termsig w) :
    mesg.length = 33 ∧ ¬ w_termsig w < mesg.length ∧ mesg[w_termsig w]? = none ∧
      (sigchld t pid w s).status = Status.fault := by
  have hlen : mesg.length = 33 := rfl
  have hnone : mesg_pname (w_termsig w) = none := mesg_pname_none _ (by omega)
  have hne : w_termsig w ≠ 0 := by omega
  refine ⟨hlen, by omega, List.getElem?_eq_none (by omega), ?_⟩
  unfold sigchld
  rw [if_pos hpid, if_neg hstop]
  simp only [hnone, hne, ne_eq, not_false_eq_true, if_true]
  rfl

/-- C15 on the status 0x137f of a target stopped by SIGSTOP (19), reported
because of WUNTRACED, with SIGTSTP = 20: `w_termsig` is 127. -/
theorem sigchld_mesg_index_witness :
    w_stopsig 4991 = 19 ∧ w_termsig 4991 = 127 ∧
    mesg.length = 33 ∧ ¬ w_termsig 4991 < mesg.length ∧ mesg[w_termsig 4991]? = none ∧
      (sigchld 20 7 4991 (controller 0 0 5 6 7 "cmd")).status = Status.fault :=
  ⟨by decide, by decide,
    sigchld_mesg_index 20 7 4991 (controller 0 0 5 6 7 "cmd")
      (by decide) (by decide) (by decide)⟩

/-! ## The option parser of main -/

theorem nameOption_argc (args : List String) (set : Option String → MainState → MainState)
    (s : MainState)
    (hset : ∀ v t, (set v t).argc = t.argc ∧ (set v t).status = t.status)
    (h : s.status ≠ ParseStatus.outOfFuel) :
    (nameOption args set s).1.argc ≤ s.argc ∧
      (nameOption args set s).1.status ≠ ParseStatus.outOfFuel := by
  unfold nameOption
  split
  · simp
  · simp [shiftArgs, (hset none s).1, (hset none s).2, h]
  · rename_i v _
    simp [shiftArgs, (hset (some v) s).1, (hset (some v) s).2, h]

theorem secondsOption_argc (usecs : String → Option Nat) (args : List String)
    (set : Nat → MainState → MainState) (s : MainState)
    (hset : ∀ u t, (set u t).argc = t.argc ∧ (set u t).status = t.status)
    (h : s.status ≠ ParseStatus.outOfFuel) :
    (secondsOption usecs args set s).1.argc ≤ s.argc ∧
      (secondsOption usecs args set s).1.status ≠ ParseStatus.outOfFuel := by
  unfold secondsOption
  split
  · simp
  · simp
  · split
    · simp
    · rename_i u _
      rw [(hset u (shiftArgs s)).1, (hset u (shiftArgs s)).2]
      simp [shiftArgs, h]

theorem optionLetter_argc (usecs : String → Option Nat) (args : List String) (ch : Char)
    (s : MainState) (h : s.status ≠ ParseStatus.outOfFuel) :
    (optionLetter usecs args ch s).1.argc ≤ s.argc ∧
      (optionLetter usecs args ch s).1.status ≠ ParseStatus.outOfFuel := by
  unfold optionLetter
  split_ifs
  · exact ⟨le_refl _, h⟩
  · exact ⟨le_refl _, h⟩
  · exact ⟨le_refl _, h⟩
  · exact nameOption_argc args _ s (fun _ _ => ⟨rfl, rfl⟩) h
  · exact nameOption_argc args _ s (fun _ _ => ⟨rfl, rfl⟩) h
  · exact secondsOption_argc usecs args _ s (fun _ _ => ⟨rfl, rfl⟩) h
  · exact secondsOption_argc usecs args _ s (fun _ _ => ⟨rfl, rfl⟩) h
  · exact secondsOption_argc usecs args _ s (fun _ _ => ⟨rfl, rfl⟩) h
  · simp

theorem optionLetters_argc (usecs : String → Option Nat) (args : List String)
    (letters : List Char) :
    ∀ s : MainState, s.status ≠ ParseStatus.outOfFuel →
      (optionLetters usecs args letters s).argc ≤ s.argc ∧
      (optionLetters usecs args letters s).status ≠ ParseStatus.outOfFuel := by
  induction letters with
  | nil => intro s _; simp [optionLetters]
  | cons ch rest ih =>
    intro s h
    obtain ⟨a1, a2⟩ := optionLetter_argc usecs args ch s h
    unfold optionLetters
    generalize optionLetter usecs args ch s = r at a1 a2
    obtain ⟨s1, cont⟩ := r
    dsimp only at a1 a2 ⊢
    split_ifs
    · exact ⟨a1, a2⟩
    · obtain ⟨i1, i2⟩ := ih s1 a2
      exact ⟨le_trans i1 a1, i2⟩
    · exact ⟨a1, a2⟩

/-- With as many passes as `argv` has strings, the outer loop of the parser
comes to its end. -/
theorem parseOptions_fuel (usecs : String → Option Nat) (args : List String) (fuel : Nat) :
    ∀ s : MainState, s.status ≠ ParseStatus.outOfFuel → s.argc ≤ fuel + 1 →
      (parseOptions usecs args fuel s).status ≠ ParseStatus.outOfFuel := by
  induction fuel with
  | zero =>
    intro s h hc
    have : ¬ s.argc > 1 := by omega
    simp [parseOptions, this, h]
  | succ n ih =>
    intro s h hc
    unfold parseOptions
    split_ifs with h1
    · split
      · simp
      · simp
      · split
        · obtain ⟨a1, a2⟩ := optionLetters_argc usecs args _ s h
          dsimp only
          split_ifs
          · exact a2
          · apply ih
            · simpa [shiftArgs] using a2
            · simp only [shiftArgs]; omega
        · exact h
    · exact h

theorem mainArgs_fuel (usecs : String → Option Nat) (args : List String) :
    (mainArgs usecs args).status ≠ ParseStatus.outOfFuel := by
  have h := parseOptions_fuel usecs args args.length (mainStart args.length)
    (by simp [mainStart]) (by simp [mainStart])
  unfold mainArgs
  dsimp only
  split_ifs
  · exact h
  · split <;> simp
    exact h

/-- C16 (the code departs from the claim): when a value-taking option is the
last argument the parser leaves the argument vector. After `-i` or `-o` it
has advanced `argv` twice and the test `if( !argv[1] )` reads the entry past
the null pointer that ends `argv`; for `-d`, `-t` and `-w` it hands the null
pointer `argv[2]` to `sscanf`. None of these command lines ends in
`usage()`. -/
theorem main_value_option_last (usecs : String → Option Nat) :
    (mainArgs usecs ["ptyjig", "-i"]).status = ParseStatus.readPastArgv ∧
    (mainArgs usecs ["ptyjig", "-o"]).status = ParseStatus.readPastArgv ∧
    (mainArgs usecs ["ptyjig", "-d"]).status = ParseStatus.nullDereference ∧
    (mainArgs usecs ["ptyjig", "-t"]).status = ParseStatus.nullDereference ∧
    (mainArgs usecs ["ptyjig", "-w"]).status = ParseStatus.nullDereference ∧
    (mainArgs usecs ["ptyjig", "-i"]).argv + 1 = 3 ∧
    argvAt ["ptyjig", "-i"] 3 = ArgRead.past := by
  refine ⟨rfl, rfl, rfl, rfl, rfl, rfl, rfl⟩


end Ptyjig

namespace Fuzz

/-! ## The range of the random bytes -/

/-- Every random character lies in the range the options select. -/
theorem randomChar_inRange (g : Globals) (r : Nat) :
    inRange g (toByte (randomChar g (fuzzRange g).1 (fuzzRange g).2 r)) := by
  have hnn : ∀ m : Int, 0 ≤ Int.tmod (r : Int) m := fun m =>
    Int.tmod_nonneg m (Int.ofNat_nonneg r)
  have hlt : ∀ m : Int, 0 < m → Int.tmod (r : Int) m < m := fun m hm =>
    Int.tmod_lt_of_pos _ hm
  by_cases h0 : g.flag0 = 0 <;> by_cases ha : g.flaga = 0
  · have h1 := hnn 95
    have h2 := hlt 95 (by decide)
    simp only [inRange, fuzzRange, randomChar, toByte, h0, ha, FALSE, ne_eq, not_true_eq_false,
      if_false, if_true, false_and, add_zero]
    omega
  · have h1 := hnn 255
    have h2 := hlt 255 (by decide)
    simp only [inRange, fuzzRange, randomChar, toByte, h0, ha, FALSE, ne_eq, not_true_eq_false,
      not_false_eq_true, if_false, if_true, false_and]
    omega
  · have h1 := hnn 96
    have h2 := hlt 96 (by decide)
    simp only [inRange, fuzzRange, randomChar, toByte, h0, ha, FALSE, ne_eq, not_true_eq_false,
      not_false_eq_true, if_false, if_true, true_and]
    have e96 : (95 : Int) + 1 = 96 := rfl
    rw [e96]
    split
    · left; rfl
    · right; omega
  · have h1 := hnn 256
    have h2 := hlt 256 (by decide)
    simp only [inRange, fuzzRange, randomChar, toByte, h0, ha, FALSE, ne_eq, not_true_eq_false,
      not_false_eq_true, if_false, if_true, and_false, false_and]
    omega

/-- What `putch( i )` does to standard output: it adds the byte of `i`, or
it adds nothing and the process is not running afterwards. -/
theorem putch_stdout (g : Globals) (env : Env) (i : Int) (s : State) :
    stdoutBytes (putch g env i s) = stdoutBytes s ++ [toByte i] ∨
    (stdoutBytes (putch g env i s) = stdoutBytes s ∧
      (putch g env i s).status ≠ Status.running) := by
  by_cases hr : s.status = Status.running <;> by_cases hw : env.wout s.puts = 1 <;>
    by_cases ho : g.flago = 0 <;> by_cases hf : env.wfile s.puts = 1 <;>
    by_cases hd : g.flagd = 0 <;> by_cases hrr : g.flagr = 0 <;>
    simp [putch, stdoutBytes, hr, hw, ho, hf, hd, hrr]

theorem putch_running (g : Globals) (env : Env) (i : Int) (s : State)
    (h : (putch g env i s).status = Status.running) :
    stdoutBytes (putch g env i s) = stdoutBytes s ++ [toByte i] := by
  rcases putch_stdout g env i s with h1 | ⟨-, h2⟩
  · exact h1
  · exact absurd h h2

theorem putch_not_running (g : Globals) (env : Env) (i : Int) (s : State)
    (h : s.status ≠ Status.running) : putch g env i s = s := by
  simp [putch, h]

theorem fuzzcharLoop_not_running (g : Globals) (env : Env) (m h : Int) (n : Nat) :
    ∀ s : State, s.status ≠ Status.running →
      stdoutBytes (fuzzcharLoop g env m h n s) = stdoutBytes s ∧
      (fuzzcharLoop g env m h n s).status = s.status := by
  induction n with
  | zero => intro s _; exact ⟨rfl, rfl⟩
  | succ n ih =>
    intro s hs
    have hs' : ({ s with rands := s.rands + 1 } : State).status ≠ Status.running := hs
    simp only [fuzzcharLoop, putch_not_running g env _ _ hs']
    exact ih _ hs'

theorem fuzzstrLine_eq (g : Globals) (env : Env) (m h : Int) (n : Nat) :
    ∀ s : State, fuzzstrLine g env m h n s = fuzzcharLoop g env m h n s := by
  induction n with
  | zero => intro s; rfl
  | succ n ih => intro s; simp only [fuzzstrLine, fuzzcharLoop, ih]

theorem fuzzstrLoop_not_running (g : Globals) (env : Env) (m h : Int) (n : Nat) :
    ∀ s : State, s.status ≠ Status.running →
      stdoutBytes (fuzzstrLoop g env m h n s) = stdoutBytes s ∧
      (fuzzstrLoop g env m h n s).status = s.status := by
  induction n with
  | zero => intro s _; exact ⟨rfl, rfl⟩
  | succ n ih =>
    intro s hs
    have hs' : ({ s with rands := s.rands + 1 } : State).status ≠ Status.running := hs
    obtain ⟨l1, l2⟩ := fuzzcharLoop_not_running g env m h
      (Int.tmod (env.rand s.rands) g.flagl).toNat _ hs'
    have hs2 : (fuzzcharLoop g env m h (Int.tmod (env.rand s.rands) g.flagl).toNat
        { s with rands := s.rands + 1 }).status ≠ Status.running := by rw [l2]; exact hs'
    simp only [fuzzstrLoop, fuzzstrLine_eq, putch_not_running g env _ _ hs2]
    obtain ⟨i1, i2⟩ := ih _ hs2
    rw [i1, i2, l1, l2]
    exact ⟨rfl, rfl⟩

/-- The bytes one run of the character loop adds to standard output. -/
theorem fuzzcharLoop_stdout (g : Globals) (env : Env) (n : Nat) :
    ∀ s : State, ∃ out : List Nat,
      stdoutBytes (fuzzcharLoop g env (fuzzRange g).1 (fuzzRange g).2 n s) =
        stdoutBytes s ++ out ∧
      (∀ b ∈ out, inRange g b) ∧
      ((fuzzcharLoop g env (fuzzRange g).1 (fuzzRange g).2 n s).status = Status.running →
        out.length = n) := by
  induction n with
  | zero => intro s; exact ⟨[], by simp [fuzzcharLoop], by simp, fun _ => rfl⟩
  | succ n ih =>
    intro s
    simp only [fuzzcharLoop]
    generalize hs1 : ({ s with rands := s.rands + 1 } : State) = s1
    have hb : stdoutBytes s1 = stdoutBytes s := by rw [← hs1]; rfl
    have hin := randomChar_inRange g (env.rand s.rands)
    generalize randomChar g (fuzzRange g).1 (fuzzRange g).2 (env.rand s.rands) = c at hin ⊢
    rcases putch_stdout g env c s1 with hp | ⟨hp, hnr⟩
    · obtain ⟨out, o1, o2, o3⟩ := ih (putch g env c s1)
      refine ⟨toByte c :: out, ?_, ?_, ?_⟩
      · rw [o1, hp, hb]; simp
      · intro b hb'
        rcases List.mem_cons.mp hb' with h | h
        · rw [h]; exact hin
        · exact o2 b h
      · intro hr; simp [o3 hr]
    · obtain ⟨n1, n2⟩ := fuzzcharLoop_not_running g env (fuzzRange g).1 (fuzzRange g).2 n _ hnr
      refine ⟨[], ?_, by simp, ?_⟩
      · rw [n1, hp, hb]; simp
      · intro hr
        rw [n2] at hr
        exact absurd hr hnr

theorem linesBytes_cons (line : List Nat) (lines : List (List Nat)) :
    linesBytes (line :: lines) = line ++ [10] ++ linesBytes lines := by
  simp [linesBytes]

/-- The bytes one run of the line loop adds to standard output: whole lines,
and the part of a line written before the process exited. -/
theorem fuzzstrLoop_stdout (g : Globals) (env : Env) (n : Nat) :
    ∀ s : State, ∃ (lines : List (List Nat)) (part : List Nat),
      stdoutBytes (fuzzstrLoop g env (fuzzRange g).1 (fuzzRange g).2 n s) =
        stdoutBytes s ++ linesBytes lines ++ part ∧
      (∀ line ∈ lines, ∀ b ∈ line, inRange g b) ∧
      (∀ b ∈ part, inRange g b) ∧
      ((fuzzstrLoop g env (fuzzRange g).1 (fuzzRange g).2 n s).status = Status.running →
        part = [] ∧ lines.length = n) := by
  induction n with
  | zero =>
    intro s
    exact ⟨[], [], by simp [fuzzstrLoop, linesBytes], by simp, by simp, fun _ => ⟨rfl, rfl⟩⟩
  | succ n ih =>
    intro s
    simp only [fuzzstrLoop, fuzzstrLine_eq]
    generalize hs1 : ({ s with rands := s.rands + 1 } : State) = s1
    have hb : stdoutBytes s1 = stdoutBytes s := by rw [← hs1]; rfl
    obtain ⟨out, o1, o2, -⟩ := fuzzcharLoop_stdout g env
      (Int.tmod (env.rand s.rands) g.flagl).toNat s1
    generalize fuzzcharLoop g env (fuzzRange g).1 (fuzzRange g).2
      (Int.tmod (env.rand s.rands) g.flagl).toNat s1 = s2 at o1 ⊢
    rcases putch_stdout g env 10 s2 with hp | ⟨hp, hnr⟩
    · obtain ⟨lines, part, l1, l2, l3, l4⟩ := ih (putch g env 10 s2)
      refine ⟨out :: lines, part, ?_, ?_, l3, ?_⟩
      · rw [l1, hp, o1, hb, linesBytes_cons]
        have e10 : toByte 10 = 10 := rfl
        rw [e10]
        simp
      · intro line hl
        rcases List.mem_cons.mp hl with h | h
        · rw [h]; exact o2
        · exact l2 line h
      · intro hr
        obtain ⟨p1, p2⟩ := l4 hr
        exact ⟨p1, by simp [p2]⟩
    · obtain ⟨n1, n2⟩ := fuzzstrLoop_not_running g env (fuzzRange g).1 (fuzzRange g).2 n _ hnr
      refine ⟨[], out, ?_, by simp, o2, ?_⟩
      · rw [n1, hp, o1, hb]; simp [linesBytes]
      · intro hr
        rw [n2] at hr
        exact absurd hr hnr

/-- C13: whatever `rand()` returns, every random byte `fuzz()` writes lies
in the range the options select (1..255 by default, 0..255 with `-0`,
32..126 with `-p`, 0 or 32..126 with `-p` and `-0`). Without `-l` the bytes
added to standard output are all such bytes. With `-l` they are lines, each
made of such bytes and ended by a newline, followed, when the process exited
on a failed write, by the part of a line written up to then. A run that is
still running at the end has written `length` bytes, or `length` lines. -/
theorem fuzz_bytes_in_range (g : Globals) (env : Env) (s : State) :
    (g.flagl = 0 → ∃ out : List Nat,
      stdoutBytes (fuzz g env s) = stdoutBytes s ++ out ∧
      (∀ b ∈ out, inRange g b) ∧
      ((fuzz g env s).status = Status.running → out.length = g.length.toNat)) ∧
    (g.flagl ≠ 0 → ∃ (lines : List (List Nat)) (part : List Nat),
      stdoutBytes (fuzz g env s) = stdoutBytes s ++ linesBytes lines ++ part ∧
      (∀ line ∈ lines, ∀ b ∈ line, inRange g b) ∧
      (∀ b ∈ part, inRange g b) ∧
      ((fuzz g env s).status = Status.running →
        part = [] ∧ lines.length = g.length.toNat)) := by
  constructor
  · intro hl
    simp only [fuzz, hl, ne_eq, not_true_eq_false, if_false, fuzzchar]
    exact fuzzcharLoop_stdout g env g.length.toNat s
  · intro hl
    simp only [fuzz, hl, ne_eq, not_false_eq_true, if_true, fuzzstr]
    exact fuzzstrLoop_stdout g env g.length.toNat s

/-- C13 on a run with `-p -0` and length 3 in which `rand()` returns 95, 0
and 31: the bytes written are 0 (for 127), 32 and 63. -/
theorem fuzz_bytes_in_range_witness :
    printableWithZero.flagl = 0 ∧
    stdoutBytes (fuzz printableWithZero sampleEnv start) = [0, 32, 63] ∧
    ∃ out : List Nat,
      stdoutBytes (fuzz printableWithZero sampleEnv start) = stdoutBytes start ++ out ∧
      (∀ b ∈ out, inRange printableWithZero b) ∧
      ((fuzz printableWithZero sampleEnv start).status = Status.running →
        out.length = printableWithZero.length.toNat) :=
  ⟨rfl, by decide, (fuzz_bytes_in_range printableWithZero sampleEnv start).1 rfl⟩

/-! ## myputs -/

set_option maxRecDepth 100000 in
/-- The function `oct2dec` on the decimal number written with three octal
digits gives the value of those digits in base 8. -/
theorem oct2dec_fin (a b c : Fin 8) :
    oct2dec ((a.val : Int) * 100 + (b.val : Int) * 10 + (c.val : Int)) =
      (a.val : Int) * 64 + (b.val : Int) * 8 + (c.val : Int) := by
  revert a b c
  decide

theorem oct2dec_digits (d1 d2 d3 : Nat) (h1 : isOctalDigit d1 = true)
    (h2 : isOctalDigit d2 = true) (h3 : isOctalDigit d3 = true) :
    oct2dec (((d1 : Int) - 48) * 100 + ((d2 : Int) - 48) * 10 + ((d3 : Int) - 48)) =
      ((d1 : Int) - 48) * 64 + ((d2 : Int) - 48) * 8 + ((d3 : Int) - 48) := by
  simp only [isOctalDigit, decide_eq_true_eq] at h1 h2 h3
  have e1 : ((d1 : Int) - 48) = (((⟨d1 - 48, by omega⟩ : Fin 8).val : Nat) : Int) := by
    simp only; omega
  have e2 : ((d2 : Int) - 48) = (((⟨d2 - 48, by omega⟩ : Fin 8).val : Nat) : Int) := by
    simp only; omega
  have e3 : ((d3 : Int) - 48) = (((⟨d3 - 48, by omega⟩ : Fin 8).val : Nat) : Int) := by
    simp only; omega
  rw [e1, e2, e3]
  exact oct2dec_fin _ _ _

theorem isdigit_of_isOctalDigit (d : Nat) (h : isOctalDigit d = true) : isdigit d = true := by
  simp only [isOctalDigit, isdigit, decide_eq_true_eq] at h ⊢
  omega

/-- An octal digit is none of the characters 0, backslash, b, f, n, r, t, v,
x. -/
theorem isdigit_ne (d : Nat) (h : isdigit d = true) :
    d ≠ 0 ∧ d ≠ 92 ∧ d ≠ 98 ∧ d ≠ 102 ∧ d ≠ 110 ∧ d ≠ 114 ∧ d ≠ 116 ∧ d ≠ 118 ∧ d ≠ 120 := by
  simp only [isdigit, decide_eq_true_eq] at h
  omega

/-- One pass of the loop of `myputs` on a character that is neither the
terminator nor a backslash. -/
theorem myputs_plain (g : Globals) (env : Env) (scan2x : List Nat → Option Int)
    (ch : Nat) (rest : List Nat) (c : Option Int) (st : State)
    (h0 : ch ≠ 0) (h92 : ch ≠ 92) :
    myputs g env scan2x (ch :: rest) c st =
      myputs g env scan2x rest c (putch g env ch st) := by
  have key : myputs g env scan2x (ch :: rest) c st =
      if ch = 0 then st
      else if ch = 92 then myputs g env scan2x (92 :: rest) c st
      else myputs g env scan2x rest c (putch g env ch st) := by
    delta myputs
    rfl
  rw [key, if_neg h0, if_neg h92]

/-- One pass of the loop of `myputs` on a backslash followed by a digit. -/
theorem myputs_digit (g : Globals) (env : Env) (scan2x : List Nat → Option Int)
    (e : Nat) (rest1 : List Nat) (c : Option Int) (st : State) (he : isdigit e = true) :
    myputs g env scan2x (92 :: e :: rest1) c st =
      match rest1.head? with
      | none => undefinedRead (putch g env (oct2dec (scan3d (e :: rest1))) st)
      | some d2 =>
        if isdigit d2 = true then
          match rest1 with
          | [] => undefinedRead (putch g env (oct2dec (scan3d (e :: rest1))) st)
          | _ :: rest2 =>
            match rest2.head? with
            | none => undefinedRead (putch g env (oct2dec (scan3d (e :: rest1))) st)
            | some d3 =>
              if isdigit d3 = true then
                match rest2 with
                | [] => undefinedRead (putch g env (oct2dec (scan3d (e :: rest1))) st)
                | _ :: rest3 => myputs g env scan2x rest3 (some 3)
                    (putch g env (oct2dec (scan3d (e :: rest1))) st)
              else myputs g env scan2x rest2 (some 2)
                (putch g env (oct2dec (scan3d (e :: rest1))) st)
        else myputs g env scan2x rest1 (some 1)
          (putch g env (oct2dec (scan3d (e :: rest1))) st) := by
  simp only [isdigit, decide_eq_true_eq] at he
  obtain ⟨h1, h2⟩ := he
  cases rest1 with
  | nil => interval_cases e <;> (delta myputs; rfl)
  | cons d2 rest2 =>
    cases rest2 with
    | nil => interval_cases e <;> (delta myputs; rfl)
    | cons d3 rest3 => interval_cases e <;> (delta myputs; rfl)

/-- The escape made of a backslash and three octal digits. -/
theorem myputs_octal3 (g : Globals) (env : Env) (scan2x : List Nat → Option Int)
    (d1 d2 d3 : Nat) (rest : List Nat) (c : Option Int) (st : State)
    (h1 : isOctalDigit d1 = true) (h2 : isOctalDigit d2 = true)
    (h3 : isOctalDigit d3 = true) :
    myputs g env scan2x (92 :: d1 :: d2 :: d3 :: rest) c st =
      myputs g env scan2x rest (some 3) (putch g env (octalValue [d1, d2, d3]) st) := by
  have g1 := isdigit_of_isOctalDigit d1 h1
  have g2 := isdigit_of_isOctalDigit d2 h2
  have g3 := isdigit_of_isOctalDigit d3 h3
  have hv : oct2dec (scan3d (d1 :: d2 :: d3 :: rest)) = octalValue [d1, d2, d3] := by
    have hs : scan3d (d1 :: d2 :: d3 :: rest) =
        ((d1 : Int) - 48) * 100 + ((d2 : Int) - 48) * 10 + ((d3 : Int) - 48) := by
      simp only [scan3d, List.take, List.takeWhile, g1, g2, g3, List.foldl]
      ring
    rw [hs, oct2dec_digits d1 d2 d3 h1 h2 h3]
    simp only [octalValue, List.foldl]
    ring
  rw [myputs_digit g env scan2x d1 _ c st g1, hv]
  simp only [List.head?, g2, g3, if_true]

theorem oct2dec_digits2 (d1 d2 : Nat) (h1 : isOctalDigit d1 = true)
    (h2 : isOctalDigit d2 = true) :
    oct2dec (((d1 : Int) - 48) * 10 + ((d2 : Int) - 48)) =
      ((d1 : Int) - 48) * 8 + ((d2 : Int) - 48) := by
  have h := oct2dec_digits 48 d1 d2 (by decide) h1 h2
  simpa using h

theorem oct2dec_digits1 (d1 : Nat) (h1 : isOctalDigit d1 = true) :
    oct2dec ((d1 : Int) - 48) = (d1 : Int) - 48 := by
  have h := oct2dec_digits 48 48 d1 (by decide) (by decide) h1
  simpa using h

/-- The escape made of a backslash and two octal digits, before a character
that is not a digit. -/
theorem myputs_octal2 (g : Globals) (env : Env) (scan2x : List Nat → Option Int)
    (d1 d2 x : Nat) (rest : List Nat) (c : Option Int) (st : State)
    (h1 : isOctalDigit d1 = true) (h2 : isOctalDigit d2 = true) (hx : isdigit x = false) :
    myputs g env scan2x (92 :: d1 :: d2 :: x :: rest) c st =
      myputs g env scan2x (x :: rest) (some 2) (putch g env (octalValue [d1, d2]) st) := by
  have g1 := isdigit_of_isOctalDigit d1 h1
  have g2 := isdigit_of_isOctalDigit d2 h2
  have hv : oct2dec (scan3d (d1 :: d2 :: x :: rest)) = octalValue [d1, d2] := by
    have hs : scan3d (d1 :: d2 :: x :: rest) = ((d1 : Int) - 48) * 10 + ((d2 : Int) - 48) := by
      simp only [scan3d, List.take, List.takeWhile, g1, g2, hx, List.foldl]
      ring
    rw [hs, oct2dec_digits2 d1 d2 h1 h2]
    simp only [octalValue, List.foldl]
    ring
  rw [myputs_digit g env scan2x d1 _ c st g1, hv]
  simp [List.head?, g2, hx]

/-- The escape made of a backslash and one octal digit, before a character
that is not a digit. -/
theorem myputs_octal1 (g : Globals) (env : Env) (scan2x : List Nat → Option Int)
    (d1 x : Nat) (rest : List Nat) (c : Option Int) (st : State)
    (h1 : isOctalDigit d1 = true) (hx : isdigit x = false) :
    myputs g env scan2x (92 :: d1 :: x :: rest) c st =
      myputs g env scan2x (x :: rest) (some 1) (putch g env (octalValue [d1]) st) := by
  have g1 := isdigit_of_isOctalDigit d1 h1
  have hv : oct2dec (scan3d (d1 :: x :: rest)) = octalValue [d1] := by
    have hs : scan3d (d1 :: x :: rest) = (d1 : Int) - 48 := by
      cases rest <;> simp [scan3d, List.take, List.takeWhile, g1, hx, List.foldl]
    rw [hs, oct2dec_digits1 d1 h1]
    simp [octalValue, List.foldl]
  rw [myputs_digit g env scan2x d1 _ c st g1, hv]
  simp [List.head?, hx]

/-- C14 (the code departs from the claim): what `myputs` hands to `putch`
for each escape. The escapes \b, \f, \n, \r and \v give the bytes 8, 12, 10,
13 and 11; a backslash and one to three octal digits give the byte with that
octal value; a character that is neither a backslash nor the terminator is
handed on unchanged; but the escape \t gives 13, the carriage return, where
the tab is 9. -/
theorem myputs_escapes (g : Globals) (env : Env) (scan2x : List Nat → Option Int)
    (rest : List Nat) (c : Option Int) (st : State) :
    myputs g env scan2x (92 :: 98 :: rest) c st =
      myputs g env scan2x rest c (putch g env 8 st) ∧
    myputs g env scan2x (92 :: 102 :: rest) c st =
      myputs g env scan2x rest c (putch g env 12 st) ∧
    myputs g env scan2x (92 :: 110 :: rest) c st =
      myputs g env scan2x rest c (putch g env 10 st) ∧
    myputs g env scan2x (92 :: 114 :: rest) c st =
      myputs g env scan2x rest c (putch g env 13 st) ∧
    myputs g env scan2x (92 :: 118 :: rest) c st =
      myputs g env scan2x rest c (putch g env 11 st) ∧
    (myputs g env scan2x (92 :: 116 :: rest) c st =
      myputs g env scan2x rest c (putch g env 13 st) ∧ toByte 13 ≠ 9) ∧
    (∀ d1 x : Nat, isOctalDigit d1 = true → isdigit x = false →
      myputs g env scan2x (92 :: d1 :: x :: rest) c st =
        myputs g env scan2x (x :: rest) (some 1) (putch g env (octalValue [d1]) st)) ∧
    (∀ d1 d2 x : Nat, isOctalDigit d1 = true → isOctalDigit d2 = true → isdigit x = false →
      myputs g env scan2x (92 :: d1 :: d2 :: x :: rest) c st =
        myputs g env scan2x (x :: rest) (some 2)
          (putch g env (octalValue [d1, d2]) st)) ∧
    (∀ d1 d2 d3 : Nat, isOctalDigit d1 = true → isOctalDigit d2 = true →
      isOctalDigit d3 = true →
      myputs g env scan2x (92 :: d1 :: d2 :: d3 :: rest) c st =
        myputs g env scan2x rest (some 3) (putch g env (octalValue [d1, d2, d3]) st)) ∧
    (∀ ch : Nat, ch ≠ 0 → ch ≠ 92 →
      myputs g env scan2x (ch :: rest) c st =
        myputs g env scan2x rest c (putch g env ch st)) := by
  refine ⟨?_, ?_, ?_, ?_, ?_, ⟨?_, by decide⟩, ?_, ?_, ?_, ?_⟩
  · delta myputs; rfl
  · delta myputs; rfl
  · delta myputs; rfl
  · delta myputs; rfl
  · delta myputs; rfl
  · delta myputs; rfl
  · intro d1 x h1 hx
    exact myputs_octal1 g env scan2x d1 x rest c st h1 hx
  · intro d1 d2 x h1 h2 hx
    exact myputs_octal2 g env scan2x d1 d2 x rest c st h1 h2 hx
  · intro d1 d2 d3 h1 h2 h3
    exact myputs_octal3 g env scan2x d1 d2 d3 rest c st h1 h2 h3
  · intro ch h0 h92
    exact myputs_plain g env scan2x ch rest c st h0 h92

/-- C14 on the epilog "a\tb" with every `write` succeeding: the bytes sent
to standard output are 97, 13, 98; and on "\101\n\7x": 65, 10, 7, 120. -/
theorem myputs_escapes_witness :
    stdoutBytes (myputs initialGlobals sampleEnv noHex [97, 92, 116, 98, 0] none start) =
      [97, 13, 98] ∧
    stdoutBytes (myputs initialGlobals sampleEnv noHex
      [92, 49, 48, 49, 92, 110, 92, 55, 120, 0] none start) = [65, 10, 7, 120] ∧
    myputs initialGlobals sampleEnv noHex [92, 116, 98, 0] none
        (putch initialGlobals sampleEnv 97 start) =
      myputs initialGlobals sampleEnv noHex [98, 0] none
        (putch initialGlobals sampleEnv 13 (putch initialGlobals sampleEnv 97 start)) :=
  ⟨by decide, by decide,
    (myputs_escapes initialGlobals sampleEnv noHex [98, 0] none
      (putch initialGlobals sampleEnv 97 start)).2.2.2.2.2.1.1⟩


end Fuzz
